/-
  Verification of the structured-document tree engine embedded in
  Programs/ColladaConverter/Collada15/FCollada/LibXML/tree.c.

  The development shallowly embeds the node/document arena, the tree
  mutation engine, namespace resolution/reconciliation, the growable
  buffer, and the content/entity substitution engine, and settles the
  stated claims about them.

  Conventions:
  * C pointers are modelled as `Option Nat` ids into an explicit arena
    (`Heap`).  `none` is the NULL pointer.
  * `xmlFree` marks an id as freed but keeps the record readable,
    matching freed-but-not-yet-reused C memory, so stale reads through
    dangling pointers are observable.
  * C strings (`xmlChar*`) are `Option String`.
  * Recursions over heap links (parent chains, sibling chains, child
    trees) take an explicit fuel argument; public entry points pass
    `h.nodes.length`, an upper bound on the depth of any acyclic chain
    in heap `h`.
-/
import Mathlib

set_option autoImplicit false

namespace LibXMLTree

/-! ## String primitives

The `xmlStr*` helpers live in xmlstring.c, which is not part of the
source tree under verification; they are modelled from their standard
documented behaviour (`xmlStrcat(NULL, s) = strdup(s)`,
`xmlStrcat(s, NULL) = s`, etc.). -/

/-- Modelled from the spec: `xmlStrcat` (xmlstring.c, not in src/):
concatenate `add` onto `cur`; NULL `add` returns `cur` unchanged, NULL
`cur` returns a duplicate of `add`. -/
def xmlStrcat (cur add : Option String) : Option String :=
  match add with
  | none => cur
  | some a =>
    match cur with
    | none => some a
    | some c => some (c ++ a)

/-- Modelled from the spec: `xmlStrncat` (xmlstring.c, not in src/):
concatenate the first `len` characters of `add` onto `cur`. -/
def xmlStrncat (cur add : Option String) (len : Nat) : Option String :=
  match add with
  | none => cur
  | some a =>
    match cur with
    | none => some (a.take len)
    | some c => some (c ++ a.take len)

/-- Modelled from the spec: `xmlStrndup` (xmlstring.c, not in src/). -/
def xmlStrndup (s : Option String) (len : Nat) : Option String :=
  s.map (·.take len)

/-- Modelled from the spec: `xmlStrdup` (xmlstring.c, not in src/). -/
def xmlStrdup (s : Option String) : Option String := s

/-- Modelled from the spec: `xmlStrEqual` (xmlstring.c, not in src/):
equality of two possibly-NULL strings; two NULLs are equal, a NULL is
never equal to a non-NULL string. -/
def xmlStrEqual (a b : Option String) : Bool := a == b

/-! ## Buffers (§4.1, xmlBuffer* in tree.c) -/

/-- `xmlBufferAllocationScheme`. -/
inductive BufAlloc
  | doubleit
  | exact
  | immutable
deriving DecidableEq, Repr

/-- `struct _xmlBuffer`.  `content` holds exactly the bytes from the
content pointer that belong to the buffer window; for mutable buffers
the invariant `content.length = use` is maintained by the operations
(the NUL terminator and spare capacity carry no information). -/
structure XmlBuffer where
  use : Nat
  size : Nat
  alloc : BufAlloc
  content : Option String
deriving DecidableEq, Repr

/-- `xmlBufferCreateStatic`: an immutable read-only view of external
memory (`mem`, `size` bytes).  NULL memory or zero size yield NULL. -/
def xmlBufferCreateStatic (mem : Option String) (size : Nat) : Option XmlBuffer :=
  if mem = none ∨ size = 0 then none
  else some { use := size, size := size, alloc := .immutable, content := mem }

/-- `xmlBufferEmpty`: reset length to zero.  On an immutable buffer the
content pointer is repointed at a static empty string; otherwise the
bytes are zeroed in place. -/
def xmlBufferEmpty (buf : XmlBuffer) : XmlBuffer :=
  if buf.content = none then buf
  else if buf.alloc = .immutable then
    { buf with use := 0, content := some "" }
  else
    { buf with use := 0, content := some "" }

/-- `xmlBufferShrink`: remove `len` bytes from the front.  Returns the
number of bytes removed, or `-1` on failure.  On an immutable buffer the
content pointer is advanced; otherwise the tail is moved down. -/
def xmlBufferShrink (buf : XmlBuffer) (len : Nat) : XmlBuffer × Int :=
  if len = 0 then (buf, 0)
  else if len > buf.use then (buf, -1)
  else
    (({ buf with use := buf.use - len,
                 content := buf.content.map (·.drop len) }), (len : Int))

/-- `xmlBufferResize`: grow to accommodate `size`.  Returns `0` on
problems (including an immutable buffer), `1` otherwise.  Allocation
failure is not modelled. -/
def xmlBufferResize (buf : XmlBuffer) (size : Nat) : XmlBuffer × Int :=
  if buf.alloc = .immutable then (buf, 0)
  else if size < buf.size then (buf, 1)
  else
    let newSize :=
      match buf.alloc with
      | .doubleit =>
        -- doubling growth capped only by need
        let start := if buf.size = 0 then size + 10 else buf.size * 2
        let rec double (fuel : Nat) (cur : Nat) : Nat :=
          match fuel with
          | 0 => cur
          | fuel + 1 => if size > cur then double fuel (cur * 2) else cur
        double size start
      | _ => size + 10
    ({ buf with size := newSize }, 1)

/-- `xmlBufferGrow`: ensure `len` free bytes.  Immutable buffers return
`0` untouched. -/
def xmlBufferGrow (buf : XmlBuffer) (len : Nat) : XmlBuffer × Int :=
  if buf.alloc = .immutable then (buf, 0)
  else if len + buf.use < buf.size then (buf, 0)
  else
    let size := buf.use + len + 100
    ({ buf with size := size }, (size : Int) - (buf.use : Int))

/-- `xmlBufferAdd`: append the first `len` bytes of `str` (`len = -1`
means the whole string).  Returns `0` on success, `-1` on API error. -/
def xmlBufferAdd (buf : XmlBuffer) (str : Option String) (len : Int) : XmlBuffer × Int :=
  match str with
  | none => (buf, -1)
  | some s =>
    if buf.alloc = .immutable then (buf, -1)
    else if len < -1 then (buf, -1)
    else if len = 0 then (buf, 0)
    else
      let len' : Nat := if len < 0 then s.length else len.toNat
      if len' = 0 then (buf, -1)
      else
        let needSize := buf.use + len' + 2
        let buf := if needSize > buf.size then (xmlBufferResize buf needSize).1 else buf
        ({ buf with content := some ((buf.content.getD "") ++ s.take len'),
                    use := buf.use + len' }, 0)

/-- `xmlBufferAddHead`: prepend the first `len` bytes of `str`. -/
def xmlBufferAddHead (buf : XmlBuffer) (str : Option String) (len : Int) : XmlBuffer × Int :=
  if buf.alloc = .immutable then (buf, -1)
  else
    match str with
    | none => (buf, -1)
    | some s =>
      if len < -1 then (buf, -1)
      else if len = 0 then (buf, 0)
      else
        let len' : Nat := if len < 0 then s.length else len.toNat
        if len' = 0 then (buf, -1)
        else
          let needSize := buf.use + len' + 2
          let buf := if needSize > buf.size then (xmlBufferResize buf needSize).1 else buf
          ({ buf with content := some (s.take len' ++ buf.content.getD ""),
                      use := buf.use + len' }, 0)

/-- `xmlBufferCat`: append a zero-terminated string. -/
def xmlBufferCat (buf : XmlBuffer) (str : Option String) : XmlBuffer × Int :=
  if buf.alloc = .immutable then (buf, -1)
  else
    match str with
    | none => (buf, -1)
    | some _ => xmlBufferAdd buf str (-1)

/-- `xmlBufferCCat`: append a zero-terminated C string, byte by byte,
resizing whenever fewer than 10 spare bytes remain. -/
def xmlBufferCCat (buf : XmlBuffer) (str : Option String) : XmlBuffer × Int :=
  if buf.alloc = .immutable then (buf, -1)
  else
    match str with
    | none => (buf, -1)
    | some s =>
      let step := fun (b : XmlBuffer) (c : Char) =>
        let b := if b.use + 10 ≥ b.size then (xmlBufferResize b (b.use + 10)).1 else b
        { b with content := some (b.content.getD "" ++ String.singleton c),
                 use := b.use + 1 }
      (s.data.foldl step buf, 0)

/-! ## Node & document model (§3, `xmlElementType`, `struct _xmlNode`,
`struct _xmlDoc`, `struct _xmlNs` in tree.h/tree.c) -/

/-- `xmlElementType`. -/
inductive ElemType
  | elementNode | attributeNode | textNode | cdataSectionNode | entityRefNode
  | entityNode | piNode | commentNode | documentNode | documentTypeNode
  | documentFragNode | notationNode | htmlDocumentNode | dtdNode
  | elementDecl | attributeDecl | entityDecl | namespaceDecl
  | xincludeStart | xincludeEnd | docbDocumentNode
deriving DecidableEq, Repr

/-- A node's `name` pointer.  The merge decisions in tree.c compare
names by pointer identity (`cur->name == elem->name`); text and comment
nodes always carry one of the static tag strings `xmlStringText`,
`xmlStringTextNoenc` or `xmlStringComment` (tree.c lines 99-105), for
which pointer identity coincides with the constructor used here; other
names are heap/dictionary strings compared with `xmlStrEqual`. -/
inductive NodeName
  | stringText
  | stringTextNoenc
  | stringComment
  | str (s : String)
deriving DecidableEq, Repr

/-- A namespace declaration (`struct _xmlNs`).  The `next` chain of
sibling declarations on one element is represented by the containing
`nsDef` list; `type` is `XML_LOCAL_NAMESPACE` for every declaration
built by `xmlNewNs` and is therefore not carried. -/
structure XmlNs where
  pfx : Option String
  href : Option String
deriving DecidableEq, Repr

/-- Entity kinds (`xmlEntityType`, entities.h). -/
inductive EntityType
  | internalGeneral
  | externalGeneralParsed
  | externalGeneralUnparsed
  | internalParameter
  | externalParameter
  | internalPredefined
deriving DecidableEq, Repr

/-- An entity declaration (`struct _xmlEntity`).  The declarations live
in the document's subset tables (entities.c, not in src/); `children`
is the lazily parsed replacement chain and `owner` says whether the
declaration owns that chain. -/
structure XmlEntity where
  name : String
  etype : EntityType
  content : Option String
  children : Option Nat := none
  last : Option Nat := none
  owner : Bool := false
deriving DecidableEq, Repr

/-- `struct _xmlNode` (also covering `struct _xmlAttr`, whose layout is
a prefix of the node layout and which tree.c freely casts to
`xmlNodePtr`; for attributes the `last`/`content`/`nsDef` fields are
unused).  `ns` is the node's weak reference to a declaration in some
ancestor's `nsDef` chain, carried by value. -/
structure XmlNode where
  type : ElemType
  name : Option NodeName := none
  children : Option Nat := none
  last : Option Nat := none
  parent : Option Nat := none
  next : Option Nat := none
  prev : Option Nat := none
  doc : Option Nat := none
  ns : Option XmlNs := none
  content : Option String := none
  properties : Option Nat := none
  nsDef : List XmlNs := []
deriving DecidableEq, Repr

/-- Modelled from the spec: a default/fixed attribute declaration entry
of a DTD subset (`xmlGetDtdAttrDesc` and the attribute tables live in
valid.c, not in src/): element name, attribute name, default value. -/
structure DtdAttrDecl where
  elemName : String
  attrName : String
  defaultValue : Option String
deriving DecidableEq, Repr

/-- `struct _xmlDoc` (the fields the verified operations touch).
`dict` is the optional string-interning dictionary, represented by the
set of strings it owns; `entities` models the subset entity tables
(entities.c); `attrDecls` models the subset attribute-declaration
tables (valid.c). -/
structure XmlDoc where
  intSubset : Option Nat := none
  extSubset : Option Nat := none
  oldNs : Option XmlNs := none
  dict : Option (List String) := none
  entities : List XmlEntity := []
  attrDecls : List DtdAttrDecl := []
deriving DecidableEq, Repr

/-- Decode errors recorded through `xmlTreeErr`. -/
inductive TreeErr
  | invalidHex
  | invalidDec
  | unterminatedEntity
deriving DecidableEq, Repr

def assocFind {α : Type} : List (Nat × α) → Nat → Option α
  | [], _ => none
  | (k, v) :: rest, i => if k = i then some v else assocFind rest i

def assocSet {α : Type} : List (Nat × α) → Nat → α → List (Nat × α)
  | [], _, _ => []
  | (k, v) :: rest, i, w =>
    if k = i then (k, w) :: rest else (k, v) :: assocSet rest i w

/-- The mutable arena shared by all operations.  Freed node ids are
recorded in `freed`; their records stay readable, like freed C memory
that has not been reused, so stale reads through dangling pointers
remain observable. -/
structure Heap where
  nodes : List (Nat × XmlNode) := []
  docs : List (Nat × XmlDoc) := []
  nextId : Nat := 0
  freed : List Nat := []
  errors : List TreeErr := []
deriving DecidableEq, Repr

namespace Heap

def node (h : Heap) (i : Nat) : Option XmlNode := assocFind h.nodes i

def doc (h : Heap) (i : Nat) : Option XmlDoc := assocFind h.docs i

def setNode (h : Heap) (i : Nat) (n : XmlNode) : Heap :=
  { h with nodes := assocSet h.nodes i n }

def updNode (h : Heap) (i : Nat) (f : XmlNode → XmlNode) : Heap :=
  match h.node i with
  | none => h
  | some n => h.setNode i (f n)

def updDoc (h : Heap) (i : Nat) (f : XmlDoc → XmlDoc) : Heap :=
  match h.doc i with
  | none => h
  | some d => { h with docs := assocSet h.docs i (f d) }

/-- `xmlMalloc` of a fresh node record. -/
def alloc (h : Heap) (n : XmlNode) : Heap × Nat :=
  ({ h with nodes := (h.nextId, n) :: h.nodes, nextId := h.nextId + 1 }, h.nextId)

/-- `xmlFree`: release the memory of node `i` (the record stays
readable, modelling not-yet-reused freed memory). -/
def markFreed (h : Heap) (i : Nat) : Heap :=
  { h with freed := i :: h.freed }

/-- `xmlTreeErr`: record a decode error. -/
def err (h : Heap) (e : TreeErr) : Heap :=
  { h with errors := h.errors ++ [e] }

/-- The document a node points to, if any. -/
def docOf (h : Heap) (i : Nat) : Option XmlDoc :=
  match h.node i with
  | none => none
  | some n => match n.doc with
    | none => none
    | some d => h.doc d

end Heap

/-- `xmlDictOwns` (dict.c, not in src/): modelled from the spec, the
dictionary owns a string iff it interned it. -/
def xmlDictOwns (dict : Option (List String)) (s : Option String) : Bool :=
  match dict, s with
  | some d, some s => d.contains s
  | _, _ => false

/-! ## Unlinking and freeing (§4.3, tree.c `xmlUnlinkNode`,
`xmlFreeNode`, `xmlFreeNodeList`, `xmlFreeProp`, `xmlFreePropList`) -/

/-- `xmlUnlinkNode`: detach `cur` from its parent's children/attribute
chain and from its siblings; a DTD node is additionally severed from
the document's `intSubset`/`extSubset` pointers. -/
def xmlUnlinkNode (h : Heap) (cur : Option Nat) : Heap :=
  match cur with
  | none => h
  | some c =>
    match h.node c with
    | none => h
    | some n =>
      let h :=
        if n.type = .dtdNode then
          match n.doc with
          | none => h
          | some d =>
            h.updDoc d fun dd =>
              let dd := if dd.intSubset = some c then { dd with intSubset := none } else dd
              if dd.extSubset = some c then { dd with extSubset := none } else dd
        else h
      let h :=
        match n.parent with
        | none => h
        | some p =>
          let h := h.updNode p fun pn =>
            if n.type = ElemType.attributeNode then
              if pn.properties = some c then { pn with properties := n.next } else pn
            else
              let pn := if pn.children = some c then { pn with children := n.next } else pn
              if pn.last = some c then { pn with last := n.prev } else pn
          h.updNode c fun m => { m with parent := none }
      let h :=
        match n.next with
        | none => h
        | some nx => h.updNode nx fun m => { m with prev := n.prev }
      let h :=
        match n.prev with
        | none => h
        | some pv => h.updNode pv fun m => { m with next := n.next }
      h.updNode c fun m => { m with next := none, prev := none }

mutual

/-- `xmlFreeNodeList`: free a whole sibling chain; namespace-declaration
and document heads defer to their own teardown (neither arises in the
verified operations, where the chains being freed are value/text
chains); DTD nodes in the chain are skipped. -/
def xmlFreeNodeList (fuel : Nat) (h : Heap) (cur : Option Nat) : Heap :=
  match fuel with
  | 0 => h
  | fuel + 1 =>
    match cur with
    | none => h
    | some c =>
      match h.node c with
      | none => h
      | some n =>
        if n.type = .namespaceDecl ∨ n.type = .documentNode ∨
           n.type = .htmlDocumentNode ∨ n.type = .docbDocumentNode then
          -- xmlFreeNsList / xmlFreeDoc teardown; release the record
          h.markFreed c
        else
          let h :=
            if n.type = .dtdNode then h
            else
              let h :=
                if n.children ≠ none ∧ n.type ≠ .entityRefNode then
                  xmlFreeNodeList fuel h n.children
                else h
              let h :=
                if (n.type = .elementNode ∨ n.type = .xincludeStart ∨
                    n.type = .xincludeEnd) ∧ n.properties ≠ none then
                  xmlFreePropList fuel h n.properties
                else h
              -- DICT_FREE of content/name and xmlFreeNsList of nsDef free
              -- strings and inline declarations: unobservable here
              h.markFreed c
          xmlFreeNodeList fuel h n.next

/-- `xmlFreePropList`: free an attribute and all its siblings. -/
def xmlFreePropList (fuel : Nat) (h : Heap) (cur : Option Nat) : Heap :=
  match fuel with
  | 0 => h
  | fuel + 1 =>
    match cur with
    | none => h
    | some c =>
      match h.node c with
      | none => h
      | some n =>
        let h := xmlFreeProp fuel h (some c)
        xmlFreePropList fuel h n.next

/-- `xmlFreeProp`: free one attribute and its value children.  The
ID-index removal (`xmlIsID`/`xmlRemoveID`, valid.c) is guarded on the
document having a subset; the ID index itself is not part of this
model. -/
def xmlFreeProp (fuel : Nat) (h : Heap) (cur : Option Nat) : Heap :=
  match fuel with
  | 0 => h
  | fuel + 1 =>
    match cur with
    | none => h
    | some c =>
      match h.node c with
      | none => h
      | some n =>
        let h :=
          if n.children ≠ none then xmlFreeNodeList fuel h n.children else h
        -- DICT_FREE(cur->name): string release, unobservable
        h.markFreed c

end

/-- `xmlFreeNode`: free one node (not its siblings); DTD and namespace
kinds defer to their own teardown; an entity-reference node's children
alias the referenced declaration's content and are not freed. -/
def xmlFreeNode (fuel : Nat) (h : Heap) (cur : Option Nat) : Heap :=
  match cur with
  | none => h
  | some c =>
    match h.node c with
    | none => h
    | some n =>
      if n.type = .dtdNode then h.markFreed c  -- xmlFreeDtd teardown
      else if n.type = .namespaceDecl then h.markFreed c  -- xmlFreeNs
      else if n.type = .attributeNode then xmlFreeProp fuel h (some c)
      else
        let h :=
          if n.children ≠ none ∧ n.type ≠ .entityRefNode then
            xmlFreeNodeList fuel h n.children
          else h
        let h :=
          if (n.type = .elementNode ∨ n.type = .xincludeStart ∨
              n.type = .xincludeEnd) ∧ n.properties ≠ none then
            xmlFreePropList fuel h n.properties
          else h
        -- DICT_FREE of content/name, xmlFreeNsList of nsDef: unobservable
        h.markFreed c

/-! ## Attribute lookup (`xmlHasProp`, `xmlHasNsProp`) -/

/-- The string a `name` pointer designates (the static tag strings hold
"text", "textnoenc", "comment"). -/
def NodeName.toStr : NodeName → String
  | .stringText => "text"
  | .stringTextNoenc => "textnoenc"
  | .stringComment => "comment"
  | .str s => s

def NodeName.asStr (n : Option NodeName) : Option String := n.map NodeName.toStr

/-- The process-wide `xmlCheckDTD` flag (default `1`). -/
def xmlCheckDTD : Bool := true

/-- Modelled from the spec: `xmlGetDtdAttrDesc` (valid.c, not in src/):
look up an attribute declaration for element `elemName` / attribute
`attrName` in a subset's attribute table. -/
def xmlGetDtdAttrDesc (table : List DtdAttrDecl) (elemName attrName : Option String) :
    Option DtdAttrDecl :=
  table.find? fun decl =>
    some decl.elemName == elemName && some decl.attrName == attrName

/-- The result of an attribute search: either an attribute node in the
arena or an attribute declaration from a DTD table (which tree.c
returns through the same `xmlAttrPtr` after a cast). -/
abbrev HasPropResult := Nat ⊕ DtdAttrDecl

/-- Scan of a properties chain by name (`while (prop != NULL) ...` in
`xmlHasProp`). -/
def propScanByName (h : Heap) (name : Option String) :
    Nat → Option Nat → Option HasPropResult
  | 0, _ => none
  | _, none => none
  | fuel + 1, some p =>
    match h.node p with
    | none => none
    | some pn =>
      if xmlStrEqual (NodeName.asStr pn.name) name then some (.inl p)
      else propScanByName h name fuel pn.next

/-- `xmlHasProp`: search an attribute by name on a node's properties
chain, falling back to the subsets' default attribute declarations
unless DTD use is turned off. -/
def xmlHasProp (h : Heap) (node : Option Nat) (name : Option String) :
    Option HasPropResult :=
  match node, name with
  | none, _ => none
  | _, none => none
  | some i, some _ =>
    match h.node i with
    | none => none
    | some n =>
      match propScanByName h name h.nodes.length n.properties with
      | some r => some r
      | none =>
        if ¬xmlCheckDTD then none
        else
          match n.doc with
          | none => none
          | some d =>
            match h.doc d with
            | none => none
            | some dd =>
              if dd.intSubset ≠ none then
                let attrDecl := xmlGetDtdAttrDesc dd.attrDecls
                  (NodeName.asStr n.name) name
                match attrDecl with
                | some decl =>
                  if decl.defaultValue ≠ none then some (.inr decl) else none
                | none => none
              else none

/-- Scan of a properties chain by name and namespace href
(`xmlHasNsProp`): the attribute matches when the names are equal and
either its namespace href equals `nameSpace` or both are NULL. -/
def propScanByNameNs (h : Heap) (name nameSpace : Option String) :
    Nat → Option Nat → Option HasPropResult
  | 0, _ => none
  | _, none => none
  | fuel + 1, some p =>
    match h.node p with
    | none => none
    | some pn =>
      if xmlStrEqual (NodeName.asStr pn.name) name ∧
         ((pn.ns ≠ none ∧ xmlStrEqual (pn.ns.bind XmlNs.href) nameSpace) ∨
          (pn.ns = none ∧ nameSpace = none)) then
        some (.inl p)
      else propScanByNameNs h name nameSpace fuel pn.next

/-- `xmlHasNsProp`: namespace-aware attribute search.  The DTD fallback
(qualified-name lookup via `xmlGetDtdQAttrDesc`, valid.c) is modelled
from the spec by a lookup on the element's qualified name; it is only
reachable when the document has an internal subset. -/
def xmlHasNsProp (h : Heap) (node : Option Nat) (name nameSpace : Option String) :
    Option HasPropResult :=
  match node with
  | none => none
  | some i =>
    match h.node i with
    | none => none
    | some n =>
      match propScanByNameNs h name nameSpace h.nodes.length n.properties with
      | some r => some r
      | none =>
        if ¬xmlCheckDTD then none
        else
          match n.doc with
          | none => none
          | some d =>
            match h.doc d with
            | none => none
            | some dd =>
              if dd.intSubset ≠ none then
                let ename :=
                  match n.ns with
                  | some ns =>
                    match ns.pfx with
                    | some p => (NodeName.asStr n.name).map (fun s => p ++ ":" ++ s)
                    | none => NodeName.asStr n.name
                  | none => NodeName.asStr n.name
                match xmlGetDtdAttrDesc dd.attrDecls ename name with
                | some decl => some (.inr decl)
                | none => none
              else none

/-! ## Document retargeting (`xmlSetTreeDoc`, `xmlSetListDoc`) -/

mutual

/-- `xmlSetTreeDoc`: update all nodes under `tree` to point at `doc`. -/
def xmlSetTreeDoc (fuel : Nat) (h : Heap) (tree : Option Nat) (doc : Option Nat) : Heap :=
  match fuel with
  | 0 => h
  | fuel + 1 =>
    match tree with
    | none => h
    | some t =>
      match h.node t with
      | none => h
      | some n =>
        if n.doc ≠ doc then
          let h :=
            if n.type = ElemType.elementNode then
              setPropsDoc fuel h n.properties doc
            else h
          let h :=
            if n.children ≠ none then xmlSetListDoc fuel h n.children doc else h
          h.updNode t fun m => { m with doc := doc }
        else h

/-- The `while (prop != NULL)` loop of `xmlSetTreeDoc`: retarget every
attribute and its value chain. -/
def setPropsDoc (fuel : Nat) (h : Heap) (p : Option Nat) (doc : Option Nat) : Heap :=
  match fuel with
  | 0 => h
  | fuel + 1 =>
    match p with
    | none => h
    | some i =>
      match h.node i with
      | none => h
      | some pn =>
        let h := h.updNode i fun m => { m with doc := doc }
        let h := xmlSetListDoc fuel h pn.children doc
        setPropsDoc fuel h pn.next doc

/-- `xmlSetListDoc`: retarget every node of a sibling chain. -/
def xmlSetListDoc (fuel : Nat) (h : Heap) (list : Option Nat) (doc : Option Nat) : Heap :=
  match fuel with
  | 0 => h
  | fuel + 1 =>
    match list with
    | none => h
    | some i =>
      match h.node i with
      | none => h
      | some n =>
        let h := if n.doc ≠ doc then xmlSetTreeDoc fuel h (some i) doc else h
        xmlSetListDoc fuel h n.next doc

end

/-! ## Content update helpers

`xmlNodeAddContentLen` and `xmlNodeSetContent` dispatch on the node
kind.  Every call the mutation engine makes is guarded by a
`type == XML_TEXT_NODE` check on the target, where the dispatch reduces
to the text-bearing-leaf branch; that branch is factored out here so the
mutation engine can be defined before the parser (which the
element-branch of `xmlNodeSetContent` invokes).  The equivalence with
the full dispatch on text nodes is proved below
(`xmlNodeAddContentLen_text`, `xmlNodeSetContent_text`). -/

/-- Modelled from the spec: `xmlStrncatNew` (xmlstring.c, not in src/):
like `xmlStrncat` but always returns freshly allocated memory (leaving
a dictionary-owned first argument untouched); identical at the level of
string values. -/
def xmlStrncatNew (a b : Option String) (len : Nat) : Option String :=
  xmlStrncat a b len

/-- The text-bearing-leaf branch of `xmlNodeAddContentLen` (cases
`XML_TEXT_NODE`, `XML_CDATA_SECTION_NODE`, `XML_ENTITY_REF_NODE`,
`XML_ENTITY_NODE`, `XML_PI_NODE`, `XML_COMMENT_NODE`,
`XML_NOTATION_NODE`): append `len` characters of `content` to the
node's content, copying first when the dictionary owns the current
string. -/
def nodeAddContentLenLeaf (h : Heap) (c : Nat) (content : Option String) (len : Nat) : Heap :=
  if len = 0 then h
  else
    match h.node c with
    | none => h
    | some n =>
      match content with
      | none => h
      | some _ =>
        let dict := (h.docOf c).bind XmlDoc.dict
        if xmlDictOwns dict n.content then
          h.setNode c { n with content := xmlStrncatNew n.content content len }
        else
          h.setNode c { n with content := xmlStrncat n.content content len }

/-- `xmlNodeAddContent` restricted to a text-bearing leaf target (the
only way the mutation engine calls it). -/
def nodeAddContentLeaf (h : Heap) (c : Nat) (content : Option String) : Heap :=
  match content with
  | none => h
  | some s => nodeAddContentLenLeaf h c content s.length

/-- The text-bearing-leaf branch of `xmlNodeSetContent` (cases
`XML_TEXT_NODE`, `XML_CDATA_SECTION_NODE`, `XML_ENTITY_REF_NODE`,
`XML_ENTITY_NODE`, `XML_PI_NODE`, `XML_COMMENT_NODE`): free the old
content string (unless dictionary-owned), free any leftover children
chain, and store a duplicate of `content`. -/
def nodeSetContentLeaf (h : Heap) (c : Nat) (content : Option String) : Heap :=
  match h.node c with
  | none => h
  | some n =>
    let h :=
      if n.children ≠ none then xmlFreeNodeList h.nodes.length h n.children else h
    h.updNode c fun m =>
      { m with last := none, children := none, content := xmlStrdup content }

/-! ## Node constructors (§4.2) -/

/-- `xmlNewText`: a fresh unlinked text node named by the static
`xmlStringText` tag. -/
def xmlNewText (h : Heap) (content : Option String) : Heap × Option Nat :=
  let (h, i) := h.alloc
    { type := .textNode, name := some .stringText, content := xmlStrdup content }
  (h, some i)

/-- `xmlNewDocText`. -/
def xmlNewDocText (h : Heap) (doc : Option Nat) (content : Option String) :
    Heap × Option Nat :=
  let (h, i) := xmlNewText h content
  match i with
  | none => (h, none)
  | some i => (h.updNode i fun m => { m with doc := doc }, some i)

/-- `xmlNewTextLen`. -/
def xmlNewTextLen (h : Heap) (content : Option String) (len : Nat) : Heap × Option Nat :=
  let (h, i) := h.alloc
    { type := .textNode, name := some .stringText, content := xmlStrndup content len }
  (h, some i)

/-- `xmlNewDocTextLen`. -/
def xmlNewDocTextLen (h : Heap) (doc : Option Nat) (content : Option String) (len : Nat) :
    Heap × Option Nat :=
  let (h, i) := xmlNewTextLen h content len
  match i with
  | none => (h, none)
  | some i => (h.updNode i fun m => { m with doc := doc }, some i)

/-- Modelled from the spec: the predefined entity table (entities.c,
not in src/): the five predefined entities decode to single
characters. -/
def xmlPredefinedEntities : List XmlEntity :=
  [ { name := "lt", etype := .internalPredefined, content := some "<" },
    { name := "gt", etype := .internalPredefined, content := some ">" },
    { name := "amp", etype := .internalPredefined, content := some "&" },
    { name := "apos", etype := .internalPredefined, content := some "'" },
    { name := "quot", etype := .internalPredefined, content := some "\"" } ]

/-- Modelled from the spec: `xmlGetDocEntity` (entities.c, not in
src/): look the name up in the document's subset entity tables (merged
here into `XmlDoc.entities`), falling back to the predefined
entities. -/
def xmlGetDocEntity (h : Heap) (doc : Option Nat) (name : Option String) :
    Option XmlEntity :=
  match name with
  | none => none
  | some nm =>
    let fromDoc :=
      match doc with
      | none => none
      | some d =>
        match h.doc d with
        | none => none
        | some dd => dd.entities.find? (fun e => e.name = nm)
    match fromDoc with
    | some e => some e
    | none => xmlPredefinedEntities.find? (fun e => e.name = nm)

/-- `xmlNewReference`: a fresh entity-reference node.  A leading `&`
and trailing `;` are stripped from the name; when the named entity
exists its content is aliased into the node.  (The C code also aliases
`children`/`last` to the entity-declaration object itself; entity
declarations live in the document tables in this model, so that alias
has no node id — `xmlNodeListGetString` re-resolves the entity by name
and never reads it.) -/
def xmlNewReference (h : Heap) (doc : Option Nat) (name : Option String) :
    Heap × Option Nat :=
  match name with
  | none => (h, none)
  | some nm =>
    let clean :=
      if nm.startsWith "&" then
        let rest := nm.drop 1
        if rest.endsWith ";" then rest.dropRight 1 else rest
      else nm
    let ent := xmlGetDocEntity h doc (some clean)
    let (h, i) := h.alloc
      { type := .entityRefNode, name := some (.str clean), doc := doc,
        content := match ent with | some e => e.content | none => none }
    (h, some i)

/-! ## Tree mutation engine (§4.3) -/

/-- `x != NULL && x->type == XML_TEXT_NODE && x->name == nm`, the
neighbor part of a text-merge guard, as a Boolean. -/
def textNeighborMatch (h : Heap) (i : Option Nat) (nm : Option NodeName) : Bool :=
  match i with
  | none => false
  | some x =>
    match h.node x with
    | none => false
    | some xn => decide (xn.type = ElemType.textNode) && decide (xn.name = nm)

/-- Walk to the end of an attribute chain (the `find the end` loop of
`xmlAddChild`). -/
def propChainLast (h : Heap) : Nat → Nat → Nat
  | 0, p => p
  | fuel + 1, p =>
    match h.node p with
    | none => p
    | some pn =>
      match pn.next with
      | none => p
      | some nx => propChainLast h fuel nx

/-- `xmlAddChild`: append `cur` to `parent`'s children (or attribute)
chain, coalescing adjacent text and replacing an existing same-named
attribute. -/
def xmlAddChild (h : Heap) (parent cur : Option Nat) : Heap × Option Nat :=
  match parent, cur with
  | none, _ => (h, none)
  | _, none => (h, none)
  | some p, some c =>
    match h.node p, h.node c with
    | none, _ => (h, none)
    | _, none => (h, none)
    | some pn, some cn =>
      -- if cur is TEXT, merge with adjacent TEXT nodes (cur is freed)
      if cn.type = .textNode ∧ pn.type = .textNode ∧ pn.content ≠ none ∧
         pn.name = cn.name ∧ p ≠ c then
        let h := nodeAddContentLeaf h p cn.content
        let h := xmlFreeNode h.nodes.length h (some c)
        (h, some p)
      else if cn.type = .textNode ∧
          textNeighborMatch h pn.last cn.name = true ∧ pn.last ≠ some c then
        match pn.last with
        | none => (h, none)  -- unreachable: guarded above
        | some l =>
          let h := nodeAddContentLeaf h l cn.content
          let h := xmlFreeNode h.nodes.length h (some c)
          (h, some l)
      else
        -- add the new element at the end of the children list
        let prev := cn.parent
        let h := h.updNode c fun m => { m with parent := some p }
        let h :=
          if cn.doc ≠ pn.doc then xmlSetTreeDoc h.nodes.length h (some c) pn.doc else h
        -- guard against adding a node to its parent twice
        if prev = some p then (h, some c)
        else
          let pn := (h.node p).getD pn
          let cn := (h.node c).getD cn
          -- coalescing into a text parent (any cur kind)
          if pn.type = .textNode ∧ pn.content ≠ none ∧ p ≠ c then
            let h := nodeAddContentLeaf h p cn.content
            let h := xmlFreeNode h.nodes.length h (some c)
            (h, some p)
          else if cn.type = .attributeNode then
            match pn.properties with
            | none =>
              (h.updNode p fun m => { m with properties := some c }, some c)
            | some firstProp =>
              -- check if an attribute with the same name exists
              let lastattr :=
                match cn.ns with
                | none => xmlHasProp h (some p) (NodeName.asStr cn.name)
                | some ns => xmlHasNsProp h (some p) (NodeName.asStr cn.name) ns.href
              let h :=
                match lastattr with
                | some (.inl l) =>
                  if l ≠ c then xmlFreeProp h.nodes.length h (some l) else h
                | some (.inr _) =>
                  -- a DTD attribute declaration: xmlFreeProp on a table
                  -- object is outside the arena (unreachable without a
                  -- subset); no arena effect
                  h
                | none => h
              -- find the end and append
              let l := propChainLast h h.nodes.length firstProp
              let h := h.updNode l fun m => { m with next := some c }
              let h := h.updNode c fun m => { m with prev := some l }
              (h, some c)
          else
            match pn.children with
            | none =>
              (h.updNode p fun m => { m with children := some c, last := some c }, some c)
            | some _ =>
              match pn.last with
              | none => (h, some c)  -- inconsistent heap: C would crash
              | some l =>
                let h := h.updNode l fun m => { m with next := some c }
                let h := h.updNode c fun m => { m with prev := some l }
                let h := h.updNode p fun m => { m with last := some c }
                (h, some c)

/-- `xmlTextMerge`: merge `second` into `first` when both are text
nodes with the same name tag; `second` is unlinked and freed. -/
def xmlTextMerge (h : Heap) (first second : Option Nat) : Heap × Option Nat :=
  match first with
  | none => (h, second)
  | some f =>
    match second with
    | none => (h, first)
    | some s =>
      match h.node f, h.node s with
      | none, _ => (h, first)
      | _, none => (h, first)
      | some fn, some sn =>
        if fn.type ≠ .textNode then (h, first)
        else if sn.type ≠ .textNode then (h, first)
        else if sn.name ≠ fn.name then (h, first)
        else
          let h := nodeAddContentLeaf h f sn.content
          let h := xmlUnlinkNode h (some s)
          let h := xmlFreeNode h.nodes.length h (some s)
          (h, some f)

/-- `xmlAddNextSibling`: insert `elem` after `cur`, unlinking it first;
a text `elem` is merged into a text `cur`, or into a text `cur->next`
with the same name tag; an attribute `elem` first destroys any existing
same-named attribute of `cur`'s parent. -/
def xmlAddNextSibling (h : Heap) (cur elem : Option Nat) : Heap × Option Nat :=
  match cur, elem with
  | none, _ => (h, none)
  | _, none => (h, none)
  | some c, some e =>
    match h.node c, h.node e with
    | none, _ => (h, none)
    | _, none => (h, none)
    | some _, some _ =>
      let h := xmlUnlinkNode h (some e)
      match h.node c, h.node e with
      | none, _ => (h, none)
      | _, none => (h, none)
      | some cn, some en =>
        if en.type = .textNode ∧ cn.type = .textNode then
          let h := nodeAddContentLeaf h c en.content
          let h := xmlFreeNode h.nodes.length h (some e)
          (h, some c)
        else if en.type = .textNode ∧ textNeighborMatch h cn.next cn.name = true then
          match cn.next with
          | none => (h, none)  -- unreachable: guarded above
          | some nx =>
            let nxn := (h.node nx).getD { type := .textNode }
            let tmp := xmlStrdup en.content
            let tmp := xmlStrcat tmp nxn.content
            let h := nodeSetContentLeaf h nx tmp
            let h := xmlFreeNode h.nodes.length h (some e)
            (h, some nx)
        else
          let h :=
            if en.type = .attributeNode then
              let attr :=
                match en.ns with
                | none => xmlHasProp h cn.parent (NodeName.asStr en.name)
                | some ns => xmlHasNsProp h cn.parent (NodeName.asStr en.name) ns.href
              match attr with
              | some (.inl a) =>
                if a ≠ e then xmlFreeProp h.nodes.length h (some a) else h
              | some (.inr _) => h  -- DTD declaration: no arena effect
              | none => h
            else h
          let cn := (h.node c).getD cn
          let en := (h.node e).getD en
          let h :=
            if en.doc ≠ cn.doc then xmlSetTreeDoc h.nodes.length h (some e) cn.doc else h
          let cn := (h.node c).getD cn
          let h := h.updNode e fun m =>
            { m with parent := cn.parent, prev := some c, next := cn.next }
          let h := h.updNode c fun m => { m with next := some e }
          let h :=
            match cn.next with
            | none => h
            | some nx => h.updNode nx fun m => { m with prev := some e }
          let en := (h.node e).getD en
          let h :=
            match en.parent with
            | none => h
            | some p =>
              match h.node p with
              | none => h
              | some pp =>
                if pp.last = some c ∧ en.type ≠ .attributeNode then
                  h.updNode p fun m => { m with last := some e }
                else h
          (h, some e)

/-- `xmlAddPrevSibling`: insert `elem` before `cur`, unlinking it
first; a text `elem` is merged into a text `cur` (prepending), or into
a text `cur->prev` with the same name tag; an attribute `elem` first
destroys any existing same-named attribute. -/
def xmlAddPrevSibling (h : Heap) (cur elem : Option Nat) : Heap × Option Nat :=
  match cur, elem with
  | none, _ => (h, none)
  | _, none => (h, none)
  | some c, some e =>
    match h.node c, h.node e with
    | none, _ => (h, none)
    | _, none => (h, none)
    | some _, some _ =>
      let h := xmlUnlinkNode h (some e)
      match h.node c, h.node e with
      | none, _ => (h, none)
      | _, none => (h, none)
      | some cn, some en =>
        if en.type = .textNode ∧ cn.type = .textNode then
          let tmp := xmlStrdup en.content
          let tmp := xmlStrcat tmp cn.content
          let h := nodeSetContentLeaf h c tmp
          let h := xmlFreeNode h.nodes.length h (some e)
          (h, some c)
        else if en.type = .textNode ∧ textNeighborMatch h cn.prev cn.name = true then
          match cn.prev with
          | none => (h, none)  -- unreachable: guarded above
          | some pv =>
            let h := nodeAddContentLeaf h pv en.content
            let h := xmlFreeNode h.nodes.length h (some e)
            (h, some pv)
        else
          let h :=
            if en.type = .attributeNode then
              let attr :=
                match en.ns with
                | none => xmlHasProp h cn.parent (NodeName.asStr en.name)
                | some ns => xmlHasNsProp h cn.parent (NodeName.asStr en.name) ns.href
              match attr with
              | some (.inl a) =>
                if a ≠ e then xmlFreeProp h.nodes.length h (some a) else h
              | some (.inr _) => h  -- DTD declaration: no arena effect
              | none => h
            else h
          let cn := (h.node c).getD cn
          let en := (h.node e).getD en
          let h :=
            if en.doc ≠ cn.doc then xmlSetTreeDoc h.nodes.length h (some e) cn.doc else h
          let cn := (h.node c).getD cn
          let h := h.updNode e fun m =>
            { m with parent := cn.parent, next := some c, prev := cn.prev }
          let h := h.updNode c fun m => { m with prev := some e }
          let h :=
            match cn.prev with
            | none => h
            | some pv => h.updNode pv fun m => { m with next := some e }
          let en := (h.node e).getD en
          let h :=
            match en.parent with
            | none => h
            | some p =>
              match h.node p with
              | none => h
              | some pp =>
                if en.type = .attributeNode then
                  if pp.properties = some c then
                    h.updNode p fun m => { m with properties := some e }
                  else h
                else
                  if pp.children = some c then
                    h.updNode p fun m => { m with children := some e }
                  else h
          (h, some e)

/-- Walk to the last sibling (the `while (cur->next != NULL)` loop of
`xmlAddSibling`). -/
def siblingChainLast (h : Heap) : Nat → Nat → Nat
  | 0, c => c
  | fuel + 1, c =>
    match h.node c with
    | none => c
    | some cn =>
      match cn.next with
      | none => c
      | some nx => siblingChainLast h fuel nx

/-- `xmlAddSibling`: append `elem` after the last sibling of `cur`
(found through the parent's cached `last` pointer when possible),
merging adjacent text nodes with equal name tags. -/
def xmlAddSibling (h : Heap) (cur elem : Option Nat) : Heap × Option Nat :=
  match cur, elem with
  | none, _ => (h, none)
  | _, none => (h, none)
  | some c, some e =>
    match h.node c, h.node e with
    | none, _ => (h, none)
    | _, none => (h, none)
    | some cn, some _ =>
      -- constant time if we can rely on parent->last
      let c :=
        match cn.parent with
        | some p =>
          (match h.node p with
           | some pp =>
             let canUseLast : Bool :=
               decide (pp.children ≠ none) &&
                 (match pp.last with
                  | none => false
                  | some l => decide ((h.node l).bind XmlNode.next = none))
             if canUseLast then pp.last.getD c
             else siblingChainLast h h.nodes.length c
           | none => siblingChainLast h h.nodes.length c)
        | none => siblingChainLast h h.nodes.length c
      let h := xmlUnlinkNode h (some e)
      match h.node c, h.node e with
      | none, _ => (h, none)
      | _, none => (h, none)
      | some cn, some en =>
        if cn.type = .textNode ∧ en.type = .textNode ∧ cn.name = en.name then
          let h := nodeAddContentLeaf h c en.content
          let h := xmlFreeNode h.nodes.length h (some e)
          (h, some c)
        else
          let h :=
            if en.doc ≠ cn.doc then xmlSetTreeDoc h.nodes.length h (some e) cn.doc else h
          let cn := (h.node c).getD cn
          let parent := cn.parent
          let h := h.updNode e fun m =>
            { m with prev := some c, next := none, parent := parent }
          let h := h.updNode c fun m => { m with next := some e }
          let h :=
            match parent with
            | none => h
            | some p => h.updNode p fun m => { m with last := some e }
          (h, some e)

/-- `xmlReplaceNode`: splice `cur` into `old`'s exact position and
detach `old` (returned unlinked, not freed).  Self-replacement and
attribute/non-attribute mismatches are refused. -/
def xmlReplaceNode (h : Heap) (old cur : Option Nat) : Heap × Option Nat :=
  if old = cur then (h, none)
  else
    match old with
    | none => (h, none)
    | some o =>
      match h.node o with
      | none => (h, none)
      | some oldn =>
        if oldn.parent = none then (h, none)
        else
          match cur with
          | none =>
            let h := xmlUnlinkNode h (some o)
            (h, some o)
          | some c =>
            match h.node c with
            | none => (h, some o)
            | some cn =>
              if oldn.type = .attributeNode ∧ cn.type ≠ .attributeNode then (h, some o)
              else if cn.type = .attributeNode ∧ oldn.type ≠ .attributeNode then (h, some o)
              else
                let h := xmlUnlinkNode h (some c)
                let oldn := (h.node o).getD oldn
                let h := h.updNode c fun m =>
                  { m with doc := oldn.doc, parent := oldn.parent,
                           next := oldn.next, prev := oldn.prev }
                let h :=
                  match oldn.next with
                  | none => h
                  | some nx => h.updNode nx fun m => { m with prev := some c }
                let h :=
                  match oldn.prev with
                  | none => h
                  | some pv => h.updNode pv fun m => { m with next := some c }
                let h :=
                  match oldn.parent with
                  | none => h
                  | some p =>
                    match h.node p with
                    | none => h
                    | some _ =>
                      let cn := (h.node c).getD cn
                      if cn.type = ElemType.attributeNode then
                        h.updNode p fun m =>
                          if m.properties = some o then { m with properties := some c } else m
                      else
                        let h := h.updNode p fun m =>
                          if m.children = some o then { m with children := some c } else m
                        h.updNode p fun m =>
                          if m.last = some o then { m with last := some c } else m
                let h := h.updNode o fun m =>
                  { m with next := none, prev := none, parent := none }
                (h, some o)

/-! ## Namespace resolution & reconciliation (§4.4, `xmlNewNs`,
`xmlSearchNs`, `xmlNsInScope`, `xmlSearchNsByHref`,
`xmlNewReconciliedNs`) -/

/-- `XML_XML_NAMESPACE`: the href of the reserved `xml` prefix. -/
def xmlXmlNamespace : String := "http://www.w3.org/XML/1998/namespace"

/-- `xmlNewNs`: create a namespace declaration and append it to the
element's `nsDef` chain, refusing a second declaration with an equal
prefix and any declaration of the reserved `xml` prefix. -/
def xmlNewNs (h : Heap) (node : Option Nat) (href pfx : Option String) :
    Heap × Option XmlNs :=
  let mk : XmlNs := { href := xmlStrdup href, pfx := xmlStrdup pfx }
  if pfx = some "xml" then (h, none)
  else
    match node with
    | none => (h, some mk)
    | some i =>
      match h.node i with
      | none => (h, some mk)
      | some n =>
        if n.type ≠ .elementNode then (h, none)
        else if n.nsDef.any (fun prev => xmlStrEqual prev.pfx pfx) then (h, none)
        else
          (h.updNode i fun m => { m with nsDef := m.nsDef ++ [mk] }, some mk)

/-- One `nsDef`-chain scan of `xmlSearchNs`: a NULL `nameSpace` is
matched by a declaration with NULL prefix and non-NULL href, a non-NULL
one by a declaration with an equal prefix and non-NULL href. -/
def nsDefScanByPfx (nameSpace : Option String) : List XmlNs → Option XmlNs
  | [] => none
  | ns :: rest =>
    if ns.pfx = none ∧ nameSpace = none ∧ ns.href ≠ none then some ns
    else if ns.pfx ≠ none ∧ nameSpace ≠ none ∧ ns.href ≠ none ∧
        xmlStrEqual ns.pfx nameSpace = true then some ns
    else nsDefScanByPfx nameSpace rest

/-- The match `xmlSearchNs` applies to a node's own `ns` reference. -/
def nsRefMatchByPfx (ns : XmlNs) (nameSpace : Option String) : Bool :=
  (decide (ns.pfx = none) && decide (nameSpace = none) && decide (ns.href ≠ none)) ||
  (decide (ns.pfx ≠ none) && decide (nameSpace ≠ none) && decide (ns.href ≠ none) &&
    xmlStrEqual ns.pfx nameSpace)

/-- The ancestor walk of `xmlSearchNs`: examine each element's `nsDef`
chain (and, above the start node, its resolved `ns` reference), and
stop with no result at an entity boundary. -/
def searchNsWalk (h : Heap) (orig : Nat) (nameSpace : Option String) :
    Nat → Option Nat → Option XmlNs
  | _, none => none
  | 0, some _ => none
  | fuel + 1, some i =>
    match h.node i with
    | none => none
    | some n =>
      if n.type = .entityRefNode ∨ n.type = .entityNode ∨ n.type = .entityDecl then
        none
      else
        let found :=
          if n.type = .elementNode then
            match nsDefScanByPfx nameSpace n.nsDef with
            | some ns => some ns
            | none =>
              if orig ≠ i then
                match n.ns with
                | some ns => if nsRefMatchByPfx ns nameSpace then some ns else none
                | none => none
              else none
          else none
        match found with
        | some ns => some ns
        | none => searchNsWalk h orig nameSpace fuel n.parent

/-- `xmlSearchNs`: resolve a prefix from `node` upward.  The reserved
`xml` prefix is special-cased: with no document it is synthesized on
the starting element, otherwise a document-wide fallback declaration is
lazily created and cached in `doc->oldNs`. -/
def xmlSearchNs (h : Heap) (doc node : Option Nat) (nameSpace : Option String) :
    Heap × Option XmlNs :=
  match node with
  | none => (h, none)
  | some i =>
    if nameSpace = some "xml" then
      let xmlNs : XmlNs := { href := some xmlXmlNamespace, pfx := some "xml" }
      match doc with
      | none =>
        match h.node i with
        | none => (h, none)
        | some n =>
          if n.type = .elementNode then
            (h.updNode i fun m => { m with nsDef := xmlNs :: m.nsDef }, some xmlNs)
          else
            -- the C code then dereferences the NULL doc: undefined
            (h, none)
      | some d =>
        match h.doc d with
        | none => (h, none)
        | some dd =>
          match dd.oldNs with
          | some old => (h, some old)
          | none =>
            (h.updDoc d fun m => { m with oldNs := some xmlNs }, some xmlNs)
    else
      (h, searchNsWalk h i nameSpace h.nodes.length (some i))

/-- `xmlNsInScope`: check that the declaration of `pfx` found on
`ancestor` is not shadowed between `node` and `ancestor`.  Returns `1`
(in scope), `0` (shadowed) or `-1` (error / entity boundary). -/
def xmlNsInScope (h : Heap) : Nat → Option Nat → Nat → Option String → Int
  | 0, _, _, _ => -1
  | _, none, _, _ => -1
  | fuel + 1, some i, ancestor, pfx =>
    if i = ancestor then 1
    else
      match h.node i with
      | none => -1
      | some n =>
        if n.type = .entityRefNode ∨ n.type = .entityNode ∨ n.type = .entityDecl then
          -1
        else if n.type = .elementNode ∧
            n.nsDef.any (fun tst =>
              (decide (tst.pfx = none) && decide (pfx = none)) ||
              (decide (tst.pfx ≠ none) && decide (pfx ≠ none) &&
                xmlStrEqual tst.pfx pfx)) then
          0
        else xmlNsInScope h fuel n.parent ancestor pfx

/-- One `nsDef`-chain scan of `xmlSearchNsByHref`: an href match is
accepted if the candidate prefix is non-NULL when searching for an
attribute, and the prefix is not shadowed between `orig` and the
declaring node `i`. -/
def nsDefScanByHref (h : Heap) (orig i : Nat) (isAttr : Bool) (href : Option String) :
    List XmlNs → Option XmlNs
  | [] => none
  | ns :: rest =>
    if ns.href ≠ none ∧ href ≠ none ∧ xmlStrEqual ns.href href = true then
      if (¬isAttr ∨ ns.pfx ≠ none) ∧
          xmlNsInScope h h.nodes.length (some orig) i ns.pfx = 1 then
        some ns
      else nsDefScanByHref h orig i isAttr href rest
    else nsDefScanByHref h orig i isAttr href rest

/-- The match `xmlSearchNsByHref` applies to a node's own `ns`
reference. -/
def nsRefMatchByHref (h : Heap) (orig i : Nat) (isAttr : Bool) (href : Option String)
    (ns : XmlNs) : Bool :=
  decide (ns.href ≠ none) && decide (href ≠ none) && xmlStrEqual ns.href href &&
  (decide (¬isAttr) || decide (ns.pfx ≠ none)) &&
  decide (xmlNsInScope h h.nodes.length (some orig) i ns.pfx = 1)

/-- The ancestor walk of `xmlSearchNsByHref`. -/
def searchNsByHrefWalk (h : Heap) (orig : Nat) (isAttr : Bool) (href : Option String) :
    Nat → Option Nat → Option XmlNs
  | _, none => none
  | 0, some _ => none
  | fuel + 1, some i =>
    match h.node i with
    | none => none
    | some n =>
      if n.type = .entityRefNode ∨ n.type = .entityNode ∨ n.type = .entityDecl then
        none
      else
        let found :=
          if n.type = .elementNode then
            match nsDefScanByHref h orig i isAttr href n.nsDef with
            | some ns => some ns
            | none =>
              if orig ≠ i then
                match n.ns with
                | some ns =>
                  if nsRefMatchByHref h orig i isAttr href ns then some ns else none
                | none => none
              else none
          else none
        match found with
        | some ns => some ns
        | none => searchNsByHrefWalk h orig isAttr href fuel n.parent

/-- `xmlSearchNsByHref`: resolve an href from `node` upward, requiring
a non-NULL prefix for attribute start nodes and rejecting shadowed
matches via `xmlNsInScope`; the reserved XML namespace href is
special-cased like the `xml` prefix in `xmlSearchNs`. -/
def xmlSearchNsByHref (h : Heap) (doc node : Option Nat) (href : Option String) :
    Heap × Option XmlNs :=
  match node, href with
  | none, _ => (h, none)
  | _, none => (h, none)
  | some i, some hr =>
    if hr = xmlXmlNamespace then
      let xmlNs : XmlNs := { href := some xmlXmlNamespace, pfx := some "xml" }
      match doc with
      | none =>
        match h.node i with
        | none => (h, none)
        | some n =>
          if n.type = .elementNode then
            (h.updNode i fun m => { m with nsDef := xmlNs :: m.nsDef }, some xmlNs)
          else (h, none)  -- NULL-doc dereference: undefined in C
      | some d =>
        match h.doc d with
        | none => (h, none)
        | some dd =>
          match dd.oldNs with
          | some old => (h, some old)
          | none =>
            (h.updDoc d fun m => { m with oldNs := some xmlNs }, some xmlNs)
    else
      let isAttr : Bool :=
        match h.node i with
        | some n => decide (n.type = ElemType.attributeNode)
        | none => false
      (h, searchNsByHrefWalk h i isAttr (some hr) h.nodes.length (some i))

/-- The `k`-th candidate prefix probed by `xmlNewReconciliedNs`
(`base`, `base1`, `base2`, …). -/
def probeName (base : String) (k : Nat) : String :=
  if k = 0 then base else base ++ toString k

/-- The base prefix `xmlNewReconciliedNs` derives from the original
declaration: `"default"` for the default namespace, else the original
prefix stripped to 20 characters. -/
def reconcileBase (nsv : XmlNs) : String :=
  match nsv.pfx with
  | none => "default"
  | some p => p.take 20

/-- The disambiguation loop of `xmlNewReconciliedNs`: probe candidate
prefixes until one is free, giving up (NULL) once the counter passes
1000.  Returns the chosen free prefix. -/
def reconcileProbe (h : Heap) (doc tree : Option Nat) (base : String)
    (counter : Nat) (pfx : String) : Heap × Option String :=
  let (h, defF) := xmlSearchNs h doc tree (some pfx)
  match defF with
  | none => (h, some pfx)
  | some _ =>
    if counter > 1000 then (h, none)
    else reconcileProbe h doc tree base (counter + 1) (base ++ toString counter)
termination_by 1001 - counter
decreasing_by omega

/-- `xmlNewReconciliedNs`: find an in-scope declaration with the same
href, or create a new declaration on `tree`, disambiguating the prefix
with numeric suffixes, capped at 1000 probes. -/
def xmlNewReconciliedNs (h : Heap) (doc tree : Option Nat) (ns : Option XmlNs) :
    Heap × Option XmlNs :=
  match tree with
  | none => (h, none)
  | some _ =>
    match ns with
    | none => (h, none)  -- also covers ns->type != XML_NAMESPACE_DECL:
                          -- every XmlNs value is a local declaration here
    | some nsv =>
      let (h, defF) := xmlSearchNsByHref h doc tree nsv.href
      match defF with
      | some d => (h, some d)
      | none =>
        -- strip prefixes longer than 20 chars
        let base := reconcileBase nsv
        match reconcileProbe h doc tree base 1 base with
        | (h, none) => (h, none)
        | (h, some pfx) => xmlNewNs h tree nsv.href (some pfx)

/-! ## Content & entity substitution engine (§4.5,
`xmlStringLenGetNodeList`, `xmlStringGetNodeList`,
`xmlNodeListGetString`) -/

/-- Modelled from the spec: `xmlCopyCharMultiByte`
(parserInternals.c, not in src/): encode a decoded character value;
the UTF-8 byte encoding is represented at the character level. -/
def xmlCopyCharMultiByte (v : Nat) : String :=
  String.singleton (Char.ofNat v)

/-- Hex digit value used by the `&#x...;` scan. -/
def hexDigitVal (c : Char) : Option Nat :=
  if '0' <= c && c <= '9' then some (c.toNat - '0'.toNat)
  else if 'a' <= c && c <= 'f' then some (c.toNat - 'a'.toNat + 10)
  else if 'A' <= c && c <= 'F' then some (c.toNat - 'A'.toNat + 10)
  else none

/-- Decimal digit value used by the `&#...;` scan. -/
def decDigitVal (c : Char) : Option Nat :=
  if '0' <= c && c <= '9' then some (c.toNat - '0'.toNat) else none

/-- The numeric-character-reference scan loop: accumulate digit values
until `;`; an invalid character (including a NUL or running off the
end, where `tmp` reads as 0) resets the value to 0 and reports an
error.  Returns the accumulated value, the remaining input (still
including the `;` when one was found) and the error flag. -/
def numRefScan (digitVal : Char -> Option Nat) (base : Nat) :
    List Char -> Nat -> Nat × List Char × Bool
  | [], _ => (0, [], true)
  | c :: rest, charval =>
    if c = ';' then (charval, c :: rest, false)
    else
      match digitVal c with
      | some v => numRefScan digitVal base rest (base * charval + v)
      | none => (0, c :: rest, true)

/-- `temp = ent->children; while (temp) { ...; ent->last = temp; temp =
temp->next; }`: the last node of a sibling chain. -/
def chainLastId (h : Heap) : Nat -> Option Nat -> Option Nat -> Option Nat
  | 0, _, acc => acc
  | fuel + 1, cur, acc =>
    match cur with
    | none => acc
    | some i =>
      match h.node i with
      | none => acc
      | some n => chainLastId h fuel n.next (some i)

/-- Replace the document's entity-table record for `name`. -/
def updateDocEntity (h : Heap) (d : Option Nat) (name : String)
    (f : XmlEntity -> XmlEntity) : Heap :=
  match d with
  | none => h
  | some i =>
    h.updDoc i fun dd =>
      { dd with entities := dd.entities.map fun e => if e.name = name then f e else e }

/-- The `Save the current text` step of `xmlStringLenGetNodeList`:
append the pending run to a text `last`, or create a text node and link
it manually after `last`.  Returns the updated heap, head and last. -/
def parseFlush (h : Heap) (d : Option Nat) (pending : List Char) (ret last : Option Nat) :
    Heap × Option Nat × Option Nat :=
  if pending = [] then (h, ret, last)
  else
    let lastIsText : Bool :=
      match last with
      | some l =>
        match h.node l with
        | some ln => decide (ln.type = ElemType.textNode)
        | none => false
      | none => false
    if lastIsText then
      match last with
      | some l =>
        (nodeAddContentLenLeaf h l (some (String.mk pending)) pending.length, ret, last)
      | none => (h, ret, last)  -- unreachable: lastIsText forces some
    else
      let (h, node) := xmlNewDocTextLen h d (some (String.mk pending)) pending.length
      match node with
      | none => (h, ret, last)
      | some nid =>
        match last with
        | none => (h, some nid, some nid)
        | some l =>
          let h := h.updNode l fun m => { m with next := some nid }
          let h := h.updNode nid fun m => { m with prev := some l }
          (h, ret, some nid)

/-- The `Handle the last piece of text` block at the end of
`xmlStringLenGetNodeList` (this one links through
`xmlAddNextSibling`). -/
def parseFinish (h : Heap) (d : Option Nat) (pending : List Char) (ret last : Option Nat) :
    Heap × Option Nat :=
  if pending ≠ [] ∨ ret = none then
    let lastIsText : Bool :=
      match last with
      | some l =>
        match h.node l with
        | some ln => decide (ln.type = ElemType.textNode)
        | none => false
      | none => false
    if lastIsText then
      match last with
      | some l =>
        (nodeAddContentLenLeaf h l (some (String.mk pending)) pending.length, ret)
      | none => (h, ret)  -- unreachable: lastIsText forces some
    else
      let (h, node) := xmlNewDocTextLen h d (some (String.mk pending)) pending.length
      match node with
      | none => (h, ret)
      | some nid =>
        match last with
        | none => (h, some nid)
        | some l => ((xmlAddNextSibling h (some l) (some nid)).1, ret)
  else (h, ret)

/-- The numeric-character step shared by the `&#x...;`/`&#...;`
branches: when a non-zero value was decoded, append it as a text node
(merging into a text `last` through `xmlAddNextSibling`). -/
def parseCharvalStep (h : Heap) (d : Option Nat) (charval : Nat) (ret last : Option Nat) :
    Heap × Option Nat × Option Nat :=
  if charval ≠ 0 then
    let buf := xmlCopyCharMultiByte charval
    let (h, node) := xmlNewDocText h d (some buf)
    match node with
    | none => (h, ret, last)
    | some nid =>
      match last with
      | none => (h, some nid, some nid)
      | some l =>
        let (h, r) := xmlAddNextSibling h (some l) (some nid)
        (h, ret, r)
  else (h, ret, last)

/-- The `&`-dispatch of `xmlStringLenGetNodeList` (the body of the
`if (cur[0] == '&')` branch after the flush): decode a hex or decimal
character reference, or read a named reference — predefined entities
append text, other names create a reference node whose declaration's
children chain is lazily populated through `populate` (the C code
recurses into `xmlStringGetNodeList` there).  Returns either the state
to continue scanning with (heap, remaining input, head, last) or an
early result on an unterminated reference. -/
def parseAmpStep (populate : Option String → Heap → Heap × Option Nat)
    (h : Heap) (d : Option Nat) (rest : List Char) (ret last : Option Nat) :
    (Heap × List Char × Option Nat × Option Nat) ⊕ (Heap × Option Nat) :=
  if rest.head? = some '#' ∧ rest.tail.head? = some 'x' then
    let (charval, rem, errored) := numRefScan hexDigitVal 16 rest.tail.tail 0
    let h := if errored then h.err .invalidHex else h
    let rem := if rem.head? = some ';' then rem.tail else rem
    let (h, ret, last) := parseCharvalStep h d charval ret last
    .inl (h, rem, ret, last)
  else if rest.head? = some '#' then
    let (charval, rem, errored) := numRefScan decDigitVal 10 rest.tail 0
    let h := if errored then h.err .invalidDec else h
    let rem := if rem.head? = some ';' then rem.tail else rem
    let (h, ret, last) := parseCharvalStep h d charval ret last
    .inl (h, rem, ret, last)
  else
    -- read the entity string
    let nm := rest.takeWhile fun ch => decide (ch ≠ ';') && decide (ch ≠ Char.ofNat 0)
    let rem := rest.dropWhile fun ch => decide (ch ≠ ';') && decide (ch ≠ Char.ofNat 0)
    match rem with
    | [] => .inr (h.err .unterminatedEntity, ret)
    | sc :: rest3 =>
      if sc ≠ ';' then .inr (h.err .unterminatedEntity, ret)
      else if nm = [] then .inl (h, rest3, ret, last)
      else
        let val := String.mk nm
        let ent := xmlGetDocEntity h d (some val)
        match ent with
        | some e =>
          if e.etype = .internalPredefined then
            -- predefined entities never generate nodes
            match last with
            | none =>
              let (h, node) := xmlNewDocText h d e.content
              .inl (h, rest3, node, node)
            | some l =>
              let lastIsText : Bool :=
                match h.node l with
                | some ln => decide (ln.type = ElemType.textNode)
                | none => false
              if ¬lastIsText then
                let (h, node) := xmlNewDocText h d e.content
                let (h, r) := xmlAddNextSibling h (some l) node
                .inl (h, rest3, ret, r)
              else
                let h := nodeAddContentLeaf h l e.content
                .inl (h, rest3, ret, last)
          else
            -- create a new REFERENCE node
            let (h, node) := xmlNewReference h d (some val)
            match node with
            | none => .inr (h, ret)
            | some nid =>
              let h :=
                if e.children = none then
                  let refContent := (h.node nid).bind XmlNode.content
                  let (h, kids) := populate refContent h
                  let lastKid := chainLastId h h.nodes.length kids none
                  -- each chain member's parent is set to the entity
                  -- declaration object, which is a table entry (not an
                  -- arena node) in this model
                  updateDocEntity h d val fun en =>
                    { en with children := kids, owner := true, last := lastKid }
                else h
              match last with
              | none => .inl (h, rest3, some nid, some nid)
              | some l =>
                let (h, r) := xmlAddNextSibling h (some l) (some nid)
                .inl (h, rest3, ret, r)
        | none =>
          let (h, node) := xmlNewReference h d (some val)
          match node with
          | none => .inr (h, ret)
          | some nid =>
            match last with
            | none => .inl (h, rest3, some nid, some nid)
            | some l =>
              let (h, r) := xmlAddNextSibling h (some l) (some nid)
              .inl (h, rest3, ret, r)

/-- The scanning loop of `xmlStringLenGetNodeList`.  `pending` is the
run of plain text accumulated since the last flush (the `q`..`cur`
window of the C code) and `fuel` decreases at every consumed character;
`populate` performs the nested lazy entity-children population (in the
C code a recursive call to `xmlStringGetNodeList`). -/
def parseLoopGo (populate : Option String → Heap → Heap × Option Nat) (d : Option Nat) :
    Nat → Heap → List Char → List Char → Option Nat → Option Nat → Heap × Option Nat
  | 0, h, _, _, ret, _ => (h, ret)
  | fuel + 1, h, chars, pending, ret, last =>
    match chars with
    | [] => parseFinish h d pending ret last
    | c :: rest =>
      if c = Char.ofNat 0 then parseFinish h d pending ret last
      else if c = '&' then
        let (h, ret, last) := parseFlush h d pending ret last
        match parseAmpStep populate h d rest ret last with
        | .inl (h, rem, ret, last) => parseLoopGo populate d fuel h rem [] ret last
        | .inr out => out
      else parseLoopGo populate d fuel h rest (pending ++ [c]) ret last

/-- The nested lazy entity-children population: parse the entity's
replacement text with one level of fuel less (the C recursion through
`xmlStringGetNodeList` is unbounded on cyclic entity definitions; the
cut-off is unreachable for well-formed documents). -/
def entChildrenPopulate (d : Option Nat) : Nat → Option String → Heap → Heap × Option Nat
  | 0, _, h => (h, none)
  | ef + 1, rc?, h =>
    match rc? with
    | none => (h, none)
    | some rc =>
      parseLoopGo (entChildrenPopulate d ef) d (rc.data.length + 1) h rc.data [] none none

/-- Fuel for the nested lazy entity population: one level per entity
the document declares (the C recursion populates each declaration at
most once, but loops forever on cyclic entity definitions; the cut-off
is unreachable for well-formed documents). -/
def entityFuel (h : Heap) (d : Option Nat) : Nat :=
  match d with
  | none => 1
  | some i =>
    match h.doc i with
    | none => 1
    | some dd => dd.entities.length + 1

/-- `xmlStringLenGetNodeList`: parse `value` (first `len` characters)
into a flat chain of text and entity-reference nodes. -/
def xmlStringLenGetNodeList (h : Heap) (doc : Option Nat) (value : Option String)
    (len : Nat) : Heap × Option Nat :=
  match value with
  | none => (h, none)
  | some v =>
    let chars := v.data.take len
    parseLoopGo (entChildrenPopulate doc (entityFuel h doc)) doc
      (chars.length + 1) h chars [] none none

/-- `xmlStringGetNodeList`: whole-string variant. -/
def xmlStringGetNodeList (h : Heap) (doc : Option Nat) (value : Option String) :
    Heap × Option Nat :=
  match value with
  | none => (h, none)
  | some v => xmlStringLenGetNodeList h doc value v.data.length

/-- Modelled from the spec: `xmlEncodeEntitiesReentrant` (entities.c,
not in src/): escape the predefined characters of a text run. -/
def xmlEncodeEntitiesReentrant (s : Option String) : Option String :=
  s.map fun str =>
    str.data.foldl
      (fun acc c =>
        acc ++
          (if c = '&' then "&amp;"
           else if c = '<' then "&lt;"
           else if c = '>' then "&gt;"
           else if c = Char.ofNat 13 then "&#13;"
           else String.singleton c))
      ""

/-- The `while (node != NULL)` loop of `xmlNodeListGetString`,
accumulating into `acc` (the C `ret`). -/
def nodeListGetStringLoop (h : Heap) (d : Option Nat) (inLine : Bool) :
    Nat -> Option Nat -> Option String -> Option String
  | _, none, acc => acc
  | 0, some _, acc => acc
  | fuel + 1, some i, acc =>
    match h.node i with
    | none => acc
    | some n =>
      let acc :=
        if n.type = .textNode ∨ n.type = .cdataSectionNode then
          if inLine then xmlStrcat acc n.content
          else xmlStrcat acc (xmlEncodeEntitiesReentrant n.content)
        else if n.type = .entityRefNode then
          if inLine then
            match xmlGetDocEntity h d (NodeName.asStr n.name) with
            | some ent =>
              -- recursive call on the entity's replacement chain
              xmlStrcat acc (nodeListGetStringLoop h d true fuel ent.children none)
            | none => xmlStrcat acc n.content
          else
            let acc := xmlStrncat acc (some "&") 1
            let acc := xmlStrcat acc (NodeName.asStr n.name)
            xmlStrncat acc (some ";") 1
        else acc
      nodeListGetStringLoop h d inLine fuel n.next acc

/-- `xmlNodeListGetString`: build the string equivalent of a node list
of texts and entity references; with `inLine` entity contents are
substituted, otherwise their `&name;` form is emitted and text is
escaped. -/
def xmlNodeListGetString (h : Heap) (d : Option Nat) (list : Option Nat)
    (inLine : Bool) : Option String :=
  match list with
  | none => none
  | some _ => nodeListGetStringLoop h d inLine (h.nodes.length + 1) list none

/-- `xmlGetProp`: look up an attribute by name and materialize its
value chain (empty string when the chain materializes to NULL), falling
back to the DTD default value. -/
def xmlGetProp (h : Heap) (node : Option Nat) (name : Option String) : Option String :=
  match node, name with
  | none, _ => none
  | _, none => none
  | some i, some _ =>
    match h.node i with
    | none => none
    | some n =>
      match propScanByName h name h.nodes.length n.properties with
      | some (.inl p) =>
        match h.node p with
        | none => none
        | some pn =>
          match xmlNodeListGetString h n.doc pn.children true with
          | none => some ""
          | some ret => some ret
      | some (.inr _) => none  -- the chain scan never yields a declaration
      | none =>
        if ¬xmlCheckDTD then none
        else
          match n.doc with
          | none => none
          | some d =>
            match h.doc d with
            | none => none
            | some dd =>
              if dd.intSubset ≠ none then
                match xmlGetDtdAttrDesc dd.attrDecls (NodeName.asStr n.name) name with
                | some decl =>
                  match decl.defaultValue with
                  | some v => some v
                  | none => none
                | none => none
              else none

/-! ## Full content-update dispatch (`xmlNodeAddContentLen`,
`xmlNodeAddContent`, `xmlNodeSetContent`), now that the parser and the
mutation engine are available. -/

/-- `UPDATE_LAST_CHILD_AND_PARENT`: re-point every child's parent at
`n` and refresh `n->last`. -/
def updateLastChildAndParent (h : Heap) (i : Nat) : Heap :=
  match h.node i with
  | none => h
  | some n =>
    match n.children with
    | none => h.updNode i fun m => { m with last := none }
    | some first =>
      let rec walk (fuel : Nat) (h : Heap) (cur : Nat) : Heap × Nat :=
        match fuel with
        | 0 => (h, cur)
        | fuel + 1 =>
          let h := h.updNode cur fun m => { m with parent := some i }
          match (h.node cur).bind XmlNode.next with
          | none => (h, cur)
          | some nx => walk fuel h nx
      let (h, lastc) := walk h.nodes.length h first
      h.updNode i fun m => { m with last := some lastc }

/-- `xmlNodeAddContentLen`: append content to a node; for
element/fragment kinds a text node is created, added through
`xmlAddChild` and merged with the previous last child through
`xmlTextMerge`; text-bearing leaves concatenate in place. -/
def xmlNodeAddContentLen (h : Heap) (cur : Option Nat) (content : Option String)
    (len : Nat) : Heap :=
  match cur with
  | none => h
  | some c =>
    if len = 0 then h  -- len <= 0
    else
      match h.node c with
      | none => h
      | some n =>
        match n.type with
        | .documentFragNode | .elementNode =>
          let last := n.last
          let (h, newNode) := xmlNewTextLen h content len
          match newNode with
          | none => h
          | some nn =>
            let (h, tmp) := xmlAddChild h (some c) (some nn)
            if tmp ≠ some nn then h
            else
              match last with
              | none => h
              | some l =>
                if (h.node l).bind XmlNode.next = some nn then
                  (xmlTextMerge h (some l) (some nn)).1
                else h
        | .textNode | .cdataSectionNode | .entityRefNode | .entityNode
        | .piNode | .commentNode | .notationNode =>
          nodeAddContentLenLeaf h c content len
        | _ => h

/-- `xmlNodeAddContent`. -/
def xmlNodeAddContent (h : Heap) (cur : Option Nat) (content : Option String) : Heap :=
  match cur with
  | none => h
  | some _ =>
    match content with
    | none => h
    | some s => xmlNodeAddContentLen h cur content s.length

/-- `xmlNodeSetContent`: replace a node's logical content; for
element/attribute/fragment kinds the children chain is rebuilt from
`xmlStringGetNodeList`, for text-bearing leaves the content string is
replaced. -/
def xmlNodeSetContent (h : Heap) (cur : Option Nat) (content : Option String) : Heap :=
  match cur with
  | none => h
  | some c =>
    match h.node c with
    | none => h
    | some n =>
      match n.type with
      | .documentFragNode | .elementNode | .attributeNode =>
        let h :=
          if n.children ≠ none then xmlFreeNodeList h.nodes.length h n.children else h
        let (h, kids) := xmlStringGetNodeList h n.doc content
        let h := h.updNode c fun m => { m with children := kids }
        updateLastChildAndParent h c
      | .textNode | .cdataSectionNode | .entityRefNode | .entityNode
      | .piNode | .commentNode =>
        nodeSetContentLeaf h c content
      | _ => h

/-! ## Concrete states used by the claims -/

/-- The canonical one-document arena (document id 0, empty content). -/
def docHeap (dd : XmlDoc) : Heap := { docs := [(0, dd)] }

/-- The tree `<a xmlns:x="u1"><b xmlns:x="u2"><c/></b></a>`: node 0 is
`a`, node 1 is `b`, node 2 is `c`. -/
def nsShadowHeap (dd : XmlDoc) (na nb nc : Option NodeName) (u1 u2 : String) : Heap :=
  { nodes :=
      [(0, { type := .elementNode, name := na, doc := some 0,
             children := some 1, last := some 1,
             nsDef := [{ pfx := some "x", href := some u1 }] }),
       (1, { type := .elementNode, name := nb, doc := some 0, parent := some 0,
             children := some 2, last := some 2,
             nsDef := [{ pfx := some "x", href := some u2 }] }),
       (2, { type := .elementNode, name := nc, doc := some 0, parent := some 1 })],
    docs := [(0, dd)], nextId := 3 }

/-- Two standalone text nodes with chosen name tags and contents. -/
def twoTextHeap (nm1 nm2 : NodeName) (s1 s2 : String) : Heap :=
  { nodes :=
      [(0, { type := .textNode, name := some nm1, content := some s1 }),
       (1, { type := .textNode, name := some nm2, content := some s2 })],
    nextId := 2 }

/-- An element (id 0) with one text child (id 1, name tag `nm1`,
content `s1`) and a standalone text node (id 2, name tag `nm2`,
content `s2`). -/
def childTextHeap (nm1 nm2 : NodeName) (s1 s2 : String) : Heap :=
  { nodes :=
      [(0, { type := .elementNode, name := some (.str "p"),
             children := some 1, last := some 1 }),
       (1, { type := .textNode, name := some nm1, content := some s1,
             parent := some 0 }),
       (2, { type := .textNode, name := some nm2, content := some s2 })],
    nextId := 3 }

/-- A comment anchor (id 0) whose next sibling is a text node (id 1,
name tag `nm1`), plus a standalone text node (id 2, name tag `nm2`). -/
def neighborTextHeap (nm1 nm2 : NodeName) (s1 s2 : String) : Heap :=
  { nodes :=
      [(0, { type := .commentNode, name := some .stringComment,
             content := some "cm", next := some 1 }),
       (1, { type := .textNode, name := some nm1, content := some s1,
             prev := some 0 }),
       (2, { type := .textNode, name := some nm2, content := some s2 })],
    nextId := 3 }

/-- The C3 scenario: element `e` (id 0), attribute `id="1"` (id 1,
value child id 3), attribute `id="2"` (id 2, value child id 4), under
a subset-free document. -/
def attrUniqueHeap : Heap :=
  { nodes :=
      [(0, { type := .elementNode, name := some (.str "e"), doc := some 0 }),
       (1, { type := .attributeNode, name := some (.str "id"), doc := some 0,
             children := some 3, last := some 3 }),
       (2, { type := .attributeNode, name := some (.str "id"), doc := some 0,
             children := some 4, last := some 4 }),
       (3, { type := .textNode, name := some .stringText, doc := some 0,
             content := some "1", parent := some 1 }),
       (4, { type := .textNode, name := some .stringText, doc := some 0,
             content := some "2", parent := some 2 })],
    docs := [(0, {})], nextId := 5 }

/-- The heap after the two `xmlAddChild` calls of the C3 scenario. -/
def attrUniqueResult : Heap × Option Nat :=
  let (h, _) := xmlAddChild attrUniqueHeap (some 0) (some 1)
  xmlAddChild h (some 0) (some 2)

/-- A DTD node (id 0) installed as the internal subset of document 0. -/
def dtdHeap : Heap :=
  { nodes := [(0, { type := .dtdNode, name := some (.str "d"), doc := some 0 })],
    docs := [(0, { intSubset := some 0 })], nextId := 1 }

/-- The C6 witness: a root element (id 0) whose `nsDef` chain binds
every candidate prefix `p`, `p1`, …, `p1000` (all to href `u2`). -/
def probeSaturatedHeap : Heap :=
  { nodes :=
      [(0, { type := .elementNode, name := some (.str "r"), doc := some 0,
             nsDef := (List.range 1001).map fun k =>
               { pfx := some (probeName "p" k), href := some "u2" } })],
    docs := [(0, {})], nextId := 1 }

/-- The namespace declaration the C6 witness tries to reconcile. -/
def probeForeignNs : XmlNs := { pfx := some "p", href := some "u1" }

/-! ## Helper lemmas -/

theorem strTake_length (s : String) : s.take s.length = s := by
  apply String.ext
  rw [String.data_take]
  exact List.take_length s.data

theorem strLength_ne_zero {s : String} (h : s ≠ "") : s.length ≠ 0 := by
  cases s with
  | mk data =>
    cases data with
    | nil => simp at h
    | cons a l => simp [String.length]

theorem assocFind_assocSet_found {α : Type} (l : List (Nat × α)) (k : Nat) (v w : α)
    (h : assocFind l k = some w) : assocFind (assocSet l k v) k = some v := by
  induction l with
  | nil => simp [assocFind] at h
  | cons p rest ih =>
    obtain ⟨pk, pv⟩ := p
    by_cases hk : pk = k
    · subst hk
      simp [assocFind, assocSet]
    · simp [assocFind, assocSet, hk] at h ⊢
      exact ih h

@[simp] theorem doc_setNode (h : Heap) (i : Nat) (n : XmlNode) (d : Nat) :
    (h.setNode i n).doc d = h.doc d := rfl

@[simp] theorem doc_updNode (h : Heap) (i : Nat) (f : XmlNode → XmlNode) (d : Nat) :
    (h.updNode i f).doc d = h.doc d := by
  unfold Heap.updNode
  cases h.node i
  · rfl
  · rfl

@[simp] theorem docs_updNode (h : Heap) (i : Nat) (f : XmlNode → XmlNode) :
    (h.updNode i f).docs = h.docs := by
  unfold Heap.updNode
  cases h.node i
  · rfl
  · rfl

@[simp] theorem doc_markFreed (h : Heap) (i : Nat) (d : Nat) :
    (h.markFreed i).doc d = h.doc d := rfl

@[simp] theorem node_updDoc (h : Heap) (i : Nat) (f : XmlDoc → XmlDoc) (j : Nat) :
    (h.updDoc i f).node j = h.node j := by
  unfold Heap.updDoc
  cases h.doc i
  · rfl
  · rfl

@[simp] theorem assocFind_cons_self {α : Type} (k : Nat) (v : α) (rest : List (Nat × α)) :
    assocFind ((k, v) :: rest) k = some v := by
  simp [assocFind]

theorem assocFind_cons_ne {α : Type} (k : Nat) (v : α) (rest : List (Nat × α)) (i : Nat)
    (h : k ≠ i) : assocFind ((k, v) :: rest) i = assocFind rest i := by
  simp [assocFind, h]

/-- Sanity: on a text node, the full `xmlNodeAddContentLen` dispatch is
the text-bearing-leaf branch the mutation engine calls directly. -/
theorem xmlNodeAddContentLen_text (h : Heap) (c : Nat) (n : XmlNode)
    (hn : h.node c = some n) (ht : n.type = .textNode) (content : Option String)
    (len : Nat) :
    xmlNodeAddContentLen h (some c) content len = nodeAddContentLenLeaf h c content len := by
  by_cases hl : len = 0
  · subst hl
    simp [xmlNodeAddContentLen, nodeAddContentLenLeaf]
  · simp [xmlNodeAddContentLen, hn, ht, hl]

/-- Sanity: on a text node, the full `xmlNodeSetContent` dispatch is
the text-bearing-leaf branch the mutation engine calls directly. -/
theorem xmlNodeSetContent_text (h : Heap) (c : Nat) (n : XmlNode)
    (hn : h.node c = some n) (ht : n.type = .textNode) (content : Option String) :
    xmlNodeSetContent h (some c) content = nodeSetContentLeaf h c content := by
  simp [xmlNodeSetContent, hn, ht]

/-! ## Claim theorems -/

/-- C10: for every heap and node id `n`, `xmlReplaceNode(n, n)` returns
NULL and leaves the whole arena unchanged — self-replacement is
rejected before anything is touched, and the returned previous-node
value is NULL, not `n`. -/
theorem replaceNode_self_rejected (h : Heap) (n : Nat) :
    xmlReplaceNode h (some n) (some n) = (h, none) := by
  unfold xmlReplaceNode
  simp

/-- C9: unlinking a DTD node that is the document's internal (or
external) subset also resets the document's `intSubset` (or
`extSubset`) pointer to NULL, so the document retains no dangling
pointer to the detached DTD. -/
theorem unlinkNode_dtd_severs_subsets (h : Heap) (c : Nat) (n : XmlNode) (d : Nat)
    (dd : XmlDoc) (hn : h.node c = some n) (ht : n.type = .dtdNode)
    (hd : n.doc = some d) (hdd : h.doc d = some dd) :
    ∃ dd', (xmlUnlinkNode h (some c)).doc d = some dd' ∧
      (dd.intSubset = some c → dd'.intSubset = none) ∧
      (dd.extSubset = some c → dd'.extSubset = none) := by
  refine ⟨{ (if dd.intSubset = some c then { dd with intSubset := none } else dd) with
            extSubset := if dd.extSubset = some c then none
              else (if dd.intSubset = some c then { dd with intSubset := none } else dd).extSubset },
          ?_, ?_, ?_⟩
  · simp only [xmlUnlinkNode, hn, ht, hd, if_pos, reduceIte, Heap.updDoc, hdd]
    cases hv : n.prev <;> cases hx : n.next <;> cases hp : n.parent <;>
      (simp only [Heap.doc, docs_updNode]
       refine (assocFind_assocSet_found h.docs d _ dd hdd).trans ?_
       by_cases h1 : dd.intSubset = some c <;> by_cases h2 : dd.extSubset = some c <;>
         simp [h1, h2])
  · intro hint
    simp [hint]
  · intro hext
    simp [hext]

/-- Witness for C9 at a concrete document whose internal subset is the
unlinked DTD. -/
theorem unlinkNode_dtd_severs_subsets_witness :
    ∃ dd', (xmlUnlinkNode dtdHeap (some 0)).doc 0 = some dd' ∧
      dd'.intSubset = none := by
  obtain ⟨dd', hdd', hint, _⟩ :=
    unlinkNode_dtd_severs_subsets dtdHeap 0
      { type := .dtdNode, name := some (.str "d"), doc := some 0 } 0
      { intSubset := some 0 } (by decide) (by decide) (by decide) (by decide)
  exact ⟨dd', hdd', hint (by decide)⟩

/-- C7 counterexample: on the immutable buffer viewing `"abc"`,
`xmlBufferShrink` by 1 is not a failing no-op: it advances the content
window to `"bc"`, drops `use` to 2, and returns 1 (success), so not
every mutating operation on an immutable-view buffer leaves the
observable state unchanged and reports failure. -/
theorem bufferImmutable_claim_counterexample :
    xmlBufferCreateStatic (some "abc") 3 =
      some { use := 3, size := 3, alloc := .immutable, content := some "abc" } ∧
    xmlBufferShrink { use := 3, size := 3, alloc := .immutable, content := some "abc" } 1 =
      ({ use := 2, size := 3, alloc := .immutable, content := some "bc" }, 1) ∧
    ({ use := 2, size := 3, alloc := BufAlloc.immutable, content := some "bc" } : XmlBuffer) ≠
      { use := 3, size := 3, alloc := .immutable, content := some "abc" } ∧
    (1 : Int) ≠ -1 := by
  refine ⟨by decide, ?_, by decide, by decide⟩
  decide

/-- C7 amended: on a buffer created from immutable external memory, the
append operations (`xmlBufferAdd`, `xmlBufferAddHead`, `xmlBufferCat`,
`xmlBufferCCat`) fail with -1 leaving the buffer unchanged, and
`xmlBufferGrow`/`xmlBufferResize` leave it unchanged returning 0 (their
failure value); but `xmlBufferEmpty` zeroes the length and repoints the
content at an empty constant, and `xmlBufferShrink` removes `len`
leading bytes by advancing the content window and returns `len` — these
two do mutate the observable state and report no failure. -/
theorem bufferImmutable_behaviour (mem : String) (size : Nat) (buf : XmlBuffer)
    (hbuf : xmlBufferCreateStatic (some mem) size = some buf) :
    (∀ s l, xmlBufferAdd buf (some s) l = (buf, -1)) ∧
    (∀ s l, xmlBufferAddHead buf (some s) l = (buf, -1)) ∧
    (∀ s, xmlBufferCat buf (some s) = (buf, -1)) ∧
    (∀ s, xmlBufferCCat buf (some s) = (buf, -1)) ∧
    (∀ l, xmlBufferGrow buf l = (buf, 0)) ∧
    (∀ l, xmlBufferResize buf l = (buf, 0)) ∧
    xmlBufferEmpty buf = { buf with use := 0, content := some "" } ∧
    (∀ l, 0 < l → l ≤ buf.use →
      xmlBufferShrink buf l =
        ({ buf with use := buf.use - l, content := buf.content.map (·.drop l) },
         (l : Int))) := by
  have hsz : size ≠ 0 ∧ buf = (⟨size, size, .immutable, some mem⟩ : XmlBuffer) := by
    by_cases h : size = 0
    · simp [xmlBufferCreateStatic, h] at hbuf
    · simp [xmlBufferCreateStatic, h] at hbuf
      exact ⟨h, hbuf.symm⟩
  obtain ⟨hsz0, hb⟩ := hsz
  subst hb
  refine ⟨?_, ?_, ?_, ?_, ?_, ?_, ?_, ?_⟩
  · intro s l
    simp [xmlBufferAdd]
  · intro s l
    simp [xmlBufferAddHead]
  · intro s
    simp [xmlBufferCat]
  · intro s
    simp [xmlBufferCCat]
  · intro l
    simp [xmlBufferGrow]
  · intro l
    simp [xmlBufferResize]
  · simp [xmlBufferEmpty]
  · intro l hl0 hluse
    have hus : l ≤ size := hluse
    simp only [xmlBufferShrink]
    rw [if_neg (by omega), if_neg (by simp only [Nat.not_lt]; exact hus)]

/-- Witness for the amended C7 theorem on the `"abc"` view. -/
theorem bufferImmutable_behaviour_witness :
    (xmlBufferAdd { use := 3, size := 3, alloc := .immutable, content := some "abc" }
        (some "x") 1 =
      ({ use := 3, size := 3, alloc := .immutable, content := some "abc" }, -1)) ∧
    (xmlBufferShrink { use := 3, size := 3, alloc := .immutable, content := some "abc" } 1 =
      ({ use := 2, size := 3, alloc := .immutable, content := some "bc" }, 1)) := by
  obtain ⟨hadd, _, _, _, _, _, _, hshrink⟩ :=
    bufferImmutable_behaviour "abc" 3
      { use := 3, size := 3, alloc := .immutable, content := some "abc" } (by decide)
  refine ⟨hadd "x" 1, ?_⟩
  have := hshrink 1 (by decide) (by decide)
  rw [this]
  decide

/-- C5: in `<a xmlns:x="u1"><b xmlns:x="u2"><c/></b></a>` (any element
names, any document record, any hrefs `u1`, `u2`), `xmlSearchNs`
starting at `c` with prefix `"x"` returns the declaration of the
nearest declaring ancestor `b` — prefix `x`, href `u2` — and leaves the
arena untouched; the outer declaration with href `u1` is never
reached. -/
theorem searchNs_nearest_ancestor_wins (dd : XmlDoc) (na nb nc : Option NodeName)
    (u1 u2 : String) :
    xmlSearchNs (nsShadowHeap dd na nb nc u1 u2) (some 0) (some 2) (some "x") =
      (nsShadowHeap dd na nb nc u1 u2, some { pfx := some "x", href := some u2 }) := by
  simp [xmlSearchNs, nsShadowHeap, searchNsWalk, Heap.node, assocFind, nsDefScanByPfx,
    nsRefMatchByPfx, xmlStrEqual]

/-- C2 counterexample: `xmlAddNextSibling` merges a plain text node
(name tag `xmlStringText`) directly into a "do-not-escape" text anchor
(name tag `xmlStringTextNoenc`) even though their name tags differ: the
anchor's content becomes `"ab"` and the incoming node is freed.  So
coalescing is not keyed on name-tag equality for every merge the
mutation operations perform, and plain and no-escape text nodes can
merge. -/
theorem addNextSibling_merges_unequal_name_tags :
    (xmlAddNextSibling (twoTextHeap .stringTextNoenc .stringText "a" "b")
        (some 0) (some 1)).2 = some 0 ∧
    ((xmlAddNextSibling (twoTextHeap .stringTextNoenc .stringText "a" "b")
        (some 0) (some 1)).1).node 0 =
      some { type := .textNode, name := some .stringTextNoenc, content := some "ab" } ∧
    1 ∈ ((xmlAddNextSibling (twoTextHeap .stringTextNoenc .stringText "a" "b")
        (some 0) (some 1)).1).freed ∧
    (NodeName.stringTextNoenc ≠ NodeName.stringText) := by
  refine ⟨?_, ?_, ?_, by decide⟩
  · decide
  · decide
  · decide

/-- C2 amended: coalescing is keyed on kind and name-tag equality only
for the merges directed at an existing *neighbor* — `xmlTextMerge`,
`xmlAddSibling`'s last-sibling merge, and `xmlAddChild`'s last-child
merge require both nodes to be text with equal name tags (so plain and
no-escape text never merge there, conjuncts 1-6); but
`xmlAddNextSibling` and `xmlAddPrevSibling` merge a text incoming node
into a text anchor unconditionally, ignoring name tags (conjuncts 7-8),
and `xmlAddNextSibling`'s next-neighbor merge is keyed on the anchor's
name tag matching the neighbor's, not the incoming node's, so equal
tags of the pair brought adjacent do not imply a merge (conjunct 9). -/
theorem coalescing_name_tag_rules (nm1 nm2 : NodeName) (s1 s2 : String)
    (hs1 : s1 ≠ "") (hs2 : s2 ≠ "") :
    -- 1. TextMerge with unequal tags: no-op
    (nm1 ≠ nm2 → xmlTextMerge (twoTextHeap nm1 nm2 s1 s2) (some 0) (some 1) =
      (twoTextHeap nm1 nm2 s1 s2, some 0)) ∧
    -- 2-3. TextMerge with equal tags: concatenate and free
    ((xmlTextMerge (twoTextHeap nm1 nm1 s1 s2) (some 0) (some 1)).2 = some 0 ∧
     ((xmlTextMerge (twoTextHeap nm1 nm1 s1 s2) (some 0) (some 1)).1).node 0 =
       some { type := .textNode, name := some nm1, content := some (s1 ++ s2) } ∧
     1 ∈ ((xmlTextMerge (twoTextHeap nm1 nm1 s1 s2) (some 0) (some 1)).1).freed) ∧
    -- 4. AddSibling with unequal tags: splice, both nodes intact
    (nm1 ≠ nm2 →
      (xmlAddSibling (twoTextHeap nm1 nm2 s1 s2) (some 0) (some 1)).2 = some 1 ∧
      ((xmlAddSibling (twoTextHeap nm1 nm2 s1 s2) (some 0) (some 1)).1).node 0 =
        some { type := .textNode, name := some nm1, content := some s1, next := some 1 } ∧
      ((xmlAddSibling (twoTextHeap nm1 nm2 s1 s2) (some 0) (some 1)).1).node 1 =
        some { type := .textNode, name := some nm2, content := some s2, prev := some 0 } ∧
      ((xmlAddSibling (twoTextHeap nm1 nm2 s1 s2) (some 0) (some 1)).1).freed = []) ∧
    -- 5. AddSibling with equal tags: merge
    ((xmlAddSibling (twoTextHeap nm1 nm1 s1 s2) (some 0) (some 1)).2 = some 0 ∧
     ((xmlAddSibling (twoTextHeap nm1 nm1 s1 s2) (some 0) (some 1)).1).node 0 =
       some { type := .textNode, name := some nm1, content := some (s1 ++ s2) } ∧
     1 ∈ ((xmlAddSibling (twoTextHeap nm1 nm1 s1 s2) (some 0) (some 1)).1).freed) ∧
    -- 6. AddChild last-child merge keyed on tags: unequal splices ...
    (nm1 ≠ nm2 →
      (xmlAddChild (childTextHeap nm1 nm2 s1 s2) (some 0) (some 2)).2 = some 2 ∧
      ((xmlAddChild (childTextHeap nm1 nm2 s1 s2) (some 0) (some 2)).1).node 1 =
        some { type := .textNode, name := some nm1, content := some s1,
               parent := some 0, next := some 2 } ∧
      ((xmlAddChild (childTextHeap nm1 nm2 s1 s2) (some 0) (some 2)).1).freed = []) ∧
    -- ... and equal tags merge into the last child
    ((xmlAddChild (childTextHeap nm1 nm1 s1 s2) (some 0) (some 2)).2 = some 1 ∧
     ((xmlAddChild (childTextHeap nm1 nm1 s1 s2) (some 0) (some 2)).1).node 1 =
       some { type := .textNode, name := some nm1, content := some (s1 ++ s2),
              parent := some 0 } ∧
     2 ∈ ((xmlAddChild (childTextHeap nm1 nm1 s1 s2) (some 0) (some 2)).1).freed) ∧
    -- 7. AddNextSibling merges into a text anchor whatever the tags
    ((xmlAddNextSibling (twoTextHeap nm1 nm2 s1 s2) (some 0) (some 1)).2 = some 0 ∧
     ((xmlAddNextSibling (twoTextHeap nm1 nm2 s1 s2) (some 0) (some 1)).1).node 0 =
       some { type := .textNode, name := some nm1, content := some (s1 ++ s2) } ∧
     1 ∈ ((xmlAddNextSibling (twoTextHeap nm1 nm2 s1 s2) (some 0) (some 1)).1).freed) ∧
    -- 8. AddPrevSibling merges (prepending) whatever the tags
    ((xmlAddPrevSibling (twoTextHeap nm1 nm2 s1 s2) (some 0) (some 1)).2 = some 0 ∧
     ((xmlAddPrevSibling (twoTextHeap nm1 nm2 s1 s2) (some 0) (some 1)).1).node 0 =
       some { type := .textNode, name := some nm1, content := some (s2 ++ s1) } ∧
     1 ∈ ((xmlAddPrevSibling (twoTextHeap nm1 nm2 s1 s2) (some 0) (some 1)).1).freed) ∧
    -- 9. AddNextSibling next-neighbor merge is keyed on the anchor's
    -- tag: with a comment anchor, a text neighbor and a text incoming
    -- node of the *same* tag, the node is spliced, not merged
    (nm1 ≠ .stringComment →
      (xmlAddNextSibling (neighborTextHeap nm1 nm1 s1 s2) (some 0) (some 2)).2 = some 2 ∧
      ((xmlAddNextSibling (neighborTextHeap nm1 nm1 s1 s2) (some 0) (some 2)).1).node 1 =
        some { type := .textNode, name := some nm1, content := some s1, prev := some 2 } ∧
      ((xmlAddNextSibling (neighborTextHeap nm1 nm1 s1 s2) (some 0) (some 2)).1).node 2 =
        some { type := .textNode, name := some nm1, content := some s2,
               prev := some 0, next := some 1 } ∧
      ((xmlAddNextSibling (neighborTextHeap nm1 nm1 s1 s2) (some 0) (some 2)).1).freed = []) := by
  have hl2 := strLength_ne_zero hs2
  have hl1 := strLength_ne_zero hs1
  refine ⟨?_, ⟨?_, ?_, ?_⟩, ?_, ⟨?_, ?_, ?_⟩, ?_, ⟨?_, ?_, ?_⟩, ⟨?_, ?_, ?_⟩,
    ⟨?_, ?_, ?_⟩, ?_⟩ <;>
    first
    | (intro hne
       simp [xmlTextMerge, xmlAddSibling, xmlAddNextSibling, xmlAddPrevSibling,
         xmlAddChild, twoTextHeap, childTextHeap, neighborTextHeap, Heap.node,
         Heap.updNode, Heap.setNode, Heap.markFreed, Heap.docOf, xmlUnlinkNode,
         xmlFreeNode, xmlFreeProp, siblingChainLast, textNeighborMatch,
         nodeAddContentLeaf, nodeAddContentLenLeaf, nodeSetContentLeaf,
         xmlStrdup, xmlStrcat, xmlStrncat, xmlStrncatNew, xmlDictOwns,
         assocFind, assocSet, hl2, hl1, strTake_length, hne, Ne.symm hne, xmlSetTreeDoc])
    | simp [xmlTextMerge, xmlAddSibling, xmlAddNextSibling, xmlAddPrevSibling,
        xmlAddChild, twoTextHeap, childTextHeap, neighborTextHeap, Heap.node,
        Heap.updNode, Heap.setNode, Heap.markFreed, Heap.docOf, xmlUnlinkNode,
        xmlFreeNode, xmlFreeProp, siblingChainLast, textNeighborMatch,
        nodeAddContentLeaf, nodeAddContentLenLeaf, nodeSetContentLeaf,
        xmlStrdup, xmlStrcat, xmlStrncat, xmlStrncatNew, xmlDictOwns,
        assocFind, assocSet, hl2, hl1, strTake_length, xmlSetTreeDoc]

/-- Witness for the amended C2 theorem at concrete tags and contents
(a no-escape text anchor and a plain text incoming node). -/
theorem coalescing_name_tag_rules_witness :
    xmlTextMerge (twoTextHeap .stringTextNoenc .stringText "a" "b") (some 0) (some 1) =
      (twoTextHeap .stringTextNoenc .stringText "a" "b", some 0) ∧
    (xmlAddNextSibling (twoTextHeap .stringTextNoenc .stringText "a" "b")
        (some 0) (some 1)).2 = some 0 := by
  obtain ⟨h1, _, _, _, _, _, h7, _, _⟩ :=
    coalescing_name_tag_rules .stringTextNoenc .stringText "a" "b"
      (by decide) (by decide)
  exact ⟨h1 (by decide), h7.1⟩

/-- C3 evaluated at the failing input: adding `attr(id="1")` and then
`attr(id="2")` to an empty element does *not* leave exactly one `id`
attribute.  The second `xmlAddChild` frees the first attribute through
`xmlFreeProp` — which does not unlink — and then appends the new one
after it, so the freed attribute is still the head of the element's
attribute chain, its stale `next` points at the new attribute, and
`xmlGetProp` returns the freed attribute's old value `"1"`, not
`"2"`. -/
theorem addChild_attr_unique_use_after_free :
    attrUniqueResult.2 = some 2 ∧
    ((attrUniqueResult.1).node 0).bind XmlNode.properties = some 1 ∧
    1 ∈ (attrUniqueResult.1).freed ∧
    ((attrUniqueResult.1).node 1).bind XmlNode.next = some 2 ∧
    xmlGetProp attrUniqueResult.1 (some 0) (some "id") = some "1" ∧
    xmlGetProp attrUniqueResult.1 (some 0) (some "id") ≠ some "2" := by
  refine ⟨?_, ?_, ?_, ?_, ?_, ?_⟩ <;> decide

/-- C4: for every element `p` with no children (any name, namespace
data, attributes, siblings and surrounding document), `AddChild(p,
textNode("a")); AddChild(p, textNode("b"))` leaves `p` with exactly one
child: the first text node, whose content has become `"ab"`, while the
second text node was merged into it and freed. -/
theorem addChild_coalesces_adjacent_texts (dd : XmlDoc) (en : XmlNode)
    (htype : en.type = .elementNode) (hch : en.children = none)
    (hlast : en.last = none) (hdoc : en.doc = some 0) :
    (xmlNewDocText { nodes := [(0, en)], docs := [(0, dd)], nextId := 1 }
        (some 0) (some "a")).2 = some 1 ∧
    (xmlAddChild
      (xmlNewDocText { nodes := [(0, en)], docs := [(0, dd)], nextId := 1 }
        (some 0) (some "a")).1 (some 0) (some 1)).2 = some 1 ∧
    (xmlNewDocText
      (xmlAddChild
        (xmlNewDocText { nodes := [(0, en)], docs := [(0, dd)], nextId := 1 }
          (some 0) (some "a")).1 (some 0) (some 1)).1 (some 0) (some "b")).2 = some 2 ∧
    ((xmlAddChild
      (xmlNewDocText
        (xmlAddChild
          (xmlNewDocText { nodes := [(0, en)], docs := [(0, dd)], nextId := 1 }
            (some 0) (some "a")).1 (some 0) (some 1)).1 (some 0) (some "b")).1
      (some 0) (some 2)) =
      ({ nodes :=
           [(2, { type := .textNode, name := some .stringText, content := some "b",
                  doc := some 0 }),
            (1, { type := .textNode, name := some .stringText, content := some "ab",
                  parent := some 0, doc := some 0 }),
            (0, { en with children := some 1, last := some 1 })],
         docs := [(0, dd)], nextId := 3, freed := [2] }, some 1)) := by
  have hblen : "b".length ≠ 0 := by decide
  refine ⟨?_, ?_, ?_, ?_⟩ <;>
    simp [xmlNewDocText, xmlNewText, xmlAddChild, Heap.node, Heap.updNode,
      Heap.setNode, Heap.alloc, Heap.markFreed, Heap.docOf, Heap.doc,
      xmlUnlinkNode, xmlFreeNode, siblingChainLast, textNeighborMatch,
      nodeAddContentLeaf, nodeAddContentLenLeaf, xmlStrdup, xmlStrcat,
      xmlStrncat, xmlStrncatNew, xmlDictOwns, assocFind, assocSet,
      strTake_length, xmlSetTreeDoc, htype, hch, hlast, hdoc, hblen]

/-- Witness for C4 at a concrete element and document. -/
theorem addChild_coalesces_adjacent_texts_witness :
    (xmlAddChild
      (xmlNewDocText
        (xmlAddChild
          (xmlNewDocText
            { nodes := [(0, { type := .elementNode, name := some (.str "p"),
                              doc := some 0 })],
              docs := [(0, {})], nextId := 1 }
            (some 0) (some "a")).1 (some 0) (some 1)).1 (some 0) (some "b")).1
      (some 0) (some 2)).2 = some 1 := by
  have h := addChild_coalesces_adjacent_texts {}
    { type := .elementNode, name := some (.str "p"), doc := some 0 }
    (by decide) (by decide) (by decide) (by decide)
  rw [h.2.2.2]


theorem strTake_mk_length (l : List Char) :
    (String.mk l).take l.length = String.mk l :=
  strTake_length (String.mk l)

theorem listTakeWhile_all {α : Type} (p : α → Bool) :
    ∀ l : List α, (∀ c ∈ l, p c = true) → l.takeWhile p = l
  | [], _ => rfl
  | a :: l, h => by
    have ha := h a (by simp)
    simp [List.takeWhile, ha]
    exact fun c hc => h c (by simp [hc])

theorem listDropWhile_all {α : Type} (p : α → Bool) :
    ∀ l : List α, (∀ c ∈ l, p c = true) → l.dropWhile p = []
  | [], _ => rfl
  | a :: l, h => by
    have ha := h a (by simp)
    simp [List.dropWhile, ha]
    exact fun c hc => h c (by simp [hc])

/-- Scanning a run of plain text (no `&`, no NUL) only accumulates it
into the pending window. -/
theorem parseLoopGo_plain_scan (P : Option String → Heap → Heap × Option Nat)
    (d : Option Nat) (A : List Char) (hA : ∀ c ∈ A, c ≠ '&' ∧ c ≠ Char.ofNat 0) :
    ∀ (fuel : Nat) (h : Heap) (rest pending : List Char) (r l : Option Nat),
    parseLoopGo P d (A.length + fuel) h (A ++ rest) pending r l =
      parseLoopGo P d fuel h rest (pending ++ A) r l := by
  induction A with
  | nil => intro fuel h rest pending r l; simp
  | cons a A ih =>
    intro fuel h rest pending r l
    have ha := hA a (by simp)
    rw [show (a :: A).length + fuel = (A.length + fuel) + 1 by simp; omega]
    simp only [List.cons_append, parseLoopGo, if_neg ha.2, if_neg ha.1]
    rw [ih (fun c hc => hA c (by simp [hc])) fuel h rest (pending ++ [a]) r l]
    simp

/-- C8 amended: an entity reference opened with `&` and never
terminated by `;` is handled in two ways.  A *named* reference (next
character not `#`) reaching the end of the scanned range records an
`unterminated entity` decode error, stops processing there, and returns
exactly the nodes built from the text preceding the `&`: NULL when that
text is empty, else the single text node holding it.  (Malformed
*numeric* references instead record an invalid-hex/decimal error and
scanning continues — see the counterexample.) -/
theorem parse_unterminated_named_ref (dd : XmlDoc) (A B : List Char)
    (hA : ∀ c ∈ A, c ≠ '&' ∧ c ≠ Char.ofNat 0)
    (hB : ∀ c ∈ B, c ≠ ';' ∧ c ≠ Char.ofNat 0)
    (hBh : B.head? ≠ some '#') :
    (A = [] →
      xmlStringLenGetNodeList (docHeap dd) (some 0)
          (some (String.mk (A ++ '&' :: B))) (A.length + 1 + B.length) =
        ((docHeap dd).err .unterminatedEntity, none)) ∧
    (A ≠ [] →
      xmlStringLenGetNodeList (docHeap dd) (some 0)
          (some (String.mk (A ++ '&' :: B))) (A.length + 1 + B.length) =
        ({ nodes := [(0, { type := .textNode, name := some .stringText,
                           doc := some 0, content := some (String.mk A) })],
           docs := [(0, dd)], nextId := 1,
           errors := [.unterminatedEntity] }, some 0)) := by
  have hp : ∀ c ∈ B, (fun ch => decide (ch ≠ ';') && decide (ch ≠ Char.ofNat 0)) c = true := by
    intro c hc
    have := hB c hc
    simp [this.1, this.2]
  have hAmp : ∀ (P : Option String → Heap → Heap × Option Nat) (h' : Heap)
      (d ret last : Option Nat),
      parseAmpStep P h' d B ret last = .inr (h'.err .unterminatedEntity, ret) := by
    intro P h' d ret last
    simp only [parseAmpStep]
    rw [if_neg (by simp [hBh]), if_neg (by simp [hBh])]
    simp only [listTakeWhile_all _ B hp, listDropWhile_all _ B hp]
  have hlen : A.length + 1 + B.length = (A ++ '&' :: B).length := by
    simp
    omega
  have hentry : xmlStringLenGetNodeList (docHeap dd) (some 0)
      (some (String.mk (A ++ '&' :: B))) (A.length + 1 + B.length) =
      parseLoopGo (entChildrenPopulate (some 0) (entityFuel (docHeap dd) (some 0))) (some 0)
        (B.length + 2) (docHeap dd) ('&' :: B) ([] ++ A) none none := by
    simp only [xmlStringLenGetNodeList]
    rw [hlen, List.take_length]
    rw [show (A ++ '&' :: B).length + 1 = A.length + (B.length + 2) by simp; omega]
    exact parseLoopGo_plain_scan _ _ A hA (B.length + 2) _ _ _ _ _
  constructor
  · intro hAnil
    subst hAnil
    rw [hentry]
    rw [show B.length + 2 = (B.length + 1) + 1 from rfl]
    simp only [parseLoopGo, List.nil_append]
    simp [parseFlush, hAmp]
  · intro hAne
    rw [hentry]
    rw [show B.length + 2 = (B.length + 1) + 1 from rfl]
    simp only [parseLoopGo, List.nil_append]
    simp [parseFlush, hAne, xmlNewDocTextLen, xmlNewTextLen, Heap.alloc,
      xmlStrndup, strTake_mk_length, Heap.updNode, Heap.node, Heap.setNode,
      docHeap, assocFind, assocSet, hAmp, Heap.err]

/-- C8 counterexample: on `"a&#1xb"` the decimal character reference is
opened with `&` and never terminated by `;`, and the code records an
invalid-decimal decode error — but it does not stop at the malformed
reference: scanning continues and the text after it ends up in the
result, which is the single text node `"axb"`, not the preceding text
`"a"` alone. -/
theorem parse_malformed_numeric_continues :
    xmlStringLenGetNodeList (docHeap {}) (some 0) (some "a&#1xb") 6 =
      ({ nodes := [(0, { type := .textNode, name := some .stringText, doc := some 0,
                         content := some "axb" })],
         docs := [(0, {})], nextId := 1, errors := [.invalidDec] }, some 0) ∧
    ("axb" : String) ≠ "a" := by
  exact ⟨by decide, by decide⟩

/-- Witness for the amended C8 theorem: `"ab&amp"` (no closing `;`)
yields the single text node `"ab"` plus an unterminated-entity decode
error. -/
theorem parse_unterminated_named_ref_witness :
    xmlStringLenGetNodeList (docHeap {}) (some 0)
        (some (String.mk (['a', 'b'] ++ '&' :: ['a', 'm', 'p'])))
        (['a', 'b'].length + 1 + ['a', 'm', 'p'].length) =
      ({ nodes := [(0, { type := .textNode, name := some .stringText, doc := some 0,
                         content := some (String.mk ['a', 'b']) })],
         docs := [(0, {})], nextId := 1,
         errors := [.unterminatedEntity] }, some 0) :=
  (parse_unterminated_named_ref {} ['a', 'b'] ['a', 'm', 'p']
    (by decide) (by decide) (by decide)).2 (by decide)

/-- C1: for every document in which `"amp"` is not redefined by the
subsets (so the predefined entity table applies), parsing
`"abc&amp;def"` with `xmlStringLenGetNodeList` yields a node list
consisting of exactly one text node with content `"abc&def"` — the
predefined entity is decoded to a character, never an
entity-reference node — and materializing that list with
`xmlNodeListGetString` (inLine substitution) returns `"abc&def"`. -/
theorem parse_materialize_roundtrip (dd : XmlDoc)
    (hamp : dd.entities.find? (fun e => e.name = "amp") = none) :
    xmlStringLenGetNodeList (docHeap dd) (some 0) (some "abc&amp;def") 11 =
      ({ nodes := [(0, { type := .textNode, name := some .stringText, doc := some 0,
                         content := some "abc&def" })],
         docs := [(0, dd)], nextId := 1 }, some 0) ∧
    xmlNodeListGetString
      (xmlStringLenGetNodeList (docHeap dd) (some 0) (some "abc&amp;def") 11).1
      (some 0)
      (xmlStringLenGetNodeList (docHeap dd) (some 0) (some "abc&amp;def") 11).2
      true = some "abc&def" := by
  have hdata : ("abc&amp;def").data =
      ['a', 'b', 'c', '&', 'a', 'm', 'p', ';', 'd', 'e', 'f'] := rfl
  have hres : xmlStringLenGetNodeList (docHeap dd) (some 0) (some "abc&amp;def") 11 =
      ({ nodes := [(0, { type := .textNode, name := some .stringText, doc := some 0,
                         content := some "abc&def" })],
         docs := [(0, dd)], nextId := 1 }, some 0) := by
    have e1 : ("&").length ≠ 0 := by decide
    have e2 : ("abc").take 3 = "abc" := by decide
    have e3 : ("def").take 3 = "def" := by decide
    have e4 : ("abc" : String) ++ "&" ++ "def" = "abc&def" := by decide
    simp only [xmlStringLenGetNodeList, hdata]
    simp [e1, e2, e3, e4, parseLoopGo, parseAmpStep, parseFlush, parseFinish, parseCharvalStep,
      numRefScan, xmlGetDocEntity, xmlPredefinedEntities, xmlNewDocText,
      xmlNewText, xmlNewDocTextLen, xmlNewTextLen, Heap.alloc, Heap.node,
      Heap.doc, Heap.updNode, Heap.setNode, Heap.markFreed, Heap.docOf,
      Heap.err, docHeap, assocFind, assocSet, nodeAddContentLeaf,
      nodeAddContentLenLeaf, xmlStrdup, xmlStrndup, xmlStrcat, xmlStrncat,
      xmlStrncatNew, xmlDictOwns, hamp, List.find?, xmlAddNextSibling,
      xmlUnlinkNode, xmlFreeNode, textNeighborMatch, strTake_length]
  refine ⟨hres, ?_⟩
  rw [hres]
  simp [xmlNodeListGetString, nodeListGetStringLoop, Heap.node, assocFind,
    xmlStrcat]

/-- Witness for C1 at the empty document. -/
theorem parse_materialize_roundtrip_witness :
    xmlStringLenGetNodeList (docHeap {}) (some 0) (some "abc&amp;def") 11 =
      ({ nodes := [(0, { type := .textNode, name := some .stringText, doc := some 0,
                         content := some "abc&def" })],
         docs := [(0, {})], nextId := 1 }, some 0) :=
  (parse_materialize_roundtrip {} (by decide)).1

/-- When every candidate prefix is bound in scope, the disambiguation
loop of `xmlNewReconciliedNs` runs to its counter cap and returns NULL
without touching the arena. -/
theorem reconcileProbe_saturated (h : Heap) (d t : Option Nat) (base : String)
    (hprobe : ∀ k, k ≤ 1000 → ∃ r,
      xmlSearchNs h d t (some (probeName base k)) = (h, some r)) :
    ∀ j k, j + k = 1000 → reconcileProbe h d t base (k + 1) (probeName base k) = (h, none) := by
  intro j
  induction j with
  | zero =>
    intro k hk
    obtain ⟨r, hr⟩ := hprobe k (by omega)
    rw [reconcileProbe, hr]
    simp only []
    rw [if_pos (by omega)]
  | succ j ih =>
    intro k hk
    obtain ⟨r, hr⟩ := hprobe k (by omega)
    rw [reconcileProbe, hr]
    simp only []
    rw [if_neg (by omega)]
    rw [show base ++ toString (k + 1) = probeName base (k + 1) by simp [probeName]]
    exact ih (k + 1) (by omega)

/-- C6: whenever no in-scope declaration with the original href exists
(`xmlSearchNsByHref` finds nothing) and the original prefix and every
numerically suffixed variant up to the counter cap is already bound in
scope (`xmlSearchNs` finds each candidate), `xmlNewReconciliedNs`
performs its bounded number of probes and returns NULL with the arena
unchanged — it never loops without bound. -/
theorem reconciledNs_cap_returns_null (h : Heap) (d : Option Nat) (t : Nat) (nsv : XmlNs)
    (hhref : xmlSearchNsByHref h d (some t) nsv.href = (h, none))
    (hprobe : ∀ k, k ≤ 1000 → ∃ r,
      xmlSearchNs h d (some t) (some (probeName (reconcileBase nsv) k)) = (h, some r)) :
    xmlNewReconciliedNs h d (some t) (some nsv) = (h, none) := by
  have hsat := reconcileProbe_saturated h d (some t) (reconcileBase nsv) hprobe 1000 0
    (by omega)
  simp only [probeName, if_true, reduceIte, Nat.zero_add] at hsat
  simp only [xmlNewReconciliedNs, hhref]
  rw [hsat]

theorem nsDefScanByHref_none_of_all (h : Heap) (orig i : Nat) (isAttr : Bool)
    (href : Option String) :
    ∀ l : List XmlNs, (∀ ns ∈ l, xmlStrEqual ns.href href = false) →
      nsDefScanByHref h orig i isAttr href l = none
  | [], _ => rfl
  | ns :: rest, hall => by
    have h1 := hall ns (by simp)
    simp only [nsDefScanByHref]
    rw [if_neg (by simp [h1])]
    exact nsDefScanByHref_none_of_all h orig i isAttr href rest
      fun x hx => hall x (by simp [hx])

theorem nsDefScanByPfx_isSome_of_mem (target : Option String) :
    ∀ l : List XmlNs,
      (∃ ns ∈ l, ns.pfx ≠ none ∧ target ≠ none ∧ ns.href ≠ none ∧
        xmlStrEqual ns.pfx target = true) →
      (nsDefScanByPfx target l).isSome = true
  | [], hex => by simp at hex
  | a :: rest, hex => by
    by_cases c1 : a.pfx = none ∧ target = none ∧ a.href ≠ none
    · simp [nsDefScanByPfx, c1]
    · by_cases c2 : a.pfx ≠ none ∧ target ≠ none ∧ a.href ≠ none ∧
          xmlStrEqual a.pfx target = true
      · simp [nsDefScanByPfx, c1, c2]
      · simp only [nsDefScanByPfx, if_neg c1, if_neg c2]
        obtain ⟨ns, hmem, hp⟩ := hex
        cases List.mem_cons.mp hmem with
        | inl heq =>
          subst heq
          exact absurd hp c2
        | inr hmem' =>
          exact nsDefScanByPfx_isSome_of_mem target rest ⟨ns, hmem', hp⟩

theorem probeName_p_ne_xml (k : Nat) : probeName "p" k ≠ "xml" := by
  cases k with
  | zero => decide
  | succ k =>
    intro hEq
    rw [show probeName "p" (k + 1) = "p" ++ toString (k + 1) from by simp [probeName]] at hEq
    have hd := congrArg String.data hEq
    rw [String.data_append] at hd
    rw [show ("p" : String).data = ['p'] from rfl] at hd
    have hh := congrArg List.head? hd
    simp at hh

/-- Witness for C6: a root element binding `p`, `p1`, …, `p1000` (all
candidate prefixes) to a different href; reconciling a foreign
declaration `p → "u1"` probes to the cap and yields NULL. -/
theorem reconciledNs_cap_returns_null_witness :
    xmlNewReconciliedNs probeSaturatedHeap (some 0) (some 0) (some probeForeignNs) =
      (probeSaturatedHeap, none) := by
  have hbase : reconcileBase probeForeignNs = "p" := by decide
  apply reconciledNs_cap_returns_null
  · -- no in-scope declaration with href "u1"
    have hall : ∀ ns ∈ (List.range 1001).map (fun k =>
        ({ pfx := some (probeName "p" k), href := some "u2" } : XmlNs)),
        xmlStrEqual ns.href (some "u1") = false := by
      intro ns hns
      obtain ⟨k, _, rfl⟩ := List.mem_map.mp hns
      simp [xmlStrEqual]
    have hscan : ∀ (hh : Heap) (orig i : Nat) (isAttr : Bool),
        nsDefScanByHref hh orig i isAttr (some "u1")
          ((List.range 1001).map fun k =>
            ({ pfx := some (probeName "p" k), href := some "u2" } : XmlNs)) = none :=
      fun hh orig i isAttr => nsDefScanByHref_none_of_all hh orig i isAttr (some "u1") _ hall
    show xmlSearchNsByHref probeSaturatedHeap (some 0) (some 0) (some "u1") = _
    simp [xmlSearchNsByHref, probeSaturatedHeap, Heap.node, assocFind,
      searchNsByHrefWalk, hscan, xmlXmlNamespace]
  · -- every candidate prefix is bound
    intro k hk
    rw [hbase]
    have hmem : ({ pfx := some (probeName "p" k), href := some "u2" } : XmlNs) ∈
        (List.range 1001).map (fun k =>
          ({ pfx := some (probeName "p" k), href := some "u2" } : XmlNs)) :=
      List.mem_map.mpr ⟨k, List.mem_range.mpr (by omega), rfl⟩
    have hs := nsDefScanByPfx_isSome_of_mem (some (probeName "p" k)) _
      ⟨_, hmem, by simp, by simp, by simp, by simp [xmlStrEqual]⟩
    obtain ⟨r, hr⟩ := Option.isSome_iff_exists.mp hs
    refine ⟨r, ?_⟩
    simp [xmlSearchNs, probeName_p_ne_xml k, probeSaturatedHeap, Heap.node,
      assocFind, searchNsWalk, hr]

end LibXMLTree
